import Mathlib

/-!
Verification of the selfhost container format of convex-bundler
(`pkg/selfhost/selfhost.go` and the header codec in the same package).

Modelling conventions:
- Byte strings (file contents, Go `string` and `[]byte` values) are `List Nat`,
  each element intended to be a byte value.
- Functions from Go's standard library that the package calls but that are not
  part of this repository are either modelled concretely (binary.BigEndian /
  binary.LittleEndian, hex.EncodeToString, path/filepath lexical operations,
  encoding/json for the two fixed record types of this package) or taken as
  explicit function parameters (gzip+tar packing `packF`, gzip+tar unpacking
  `gunzipF`, sha256.Sum256 `hashF`); theorems quantify over those parameters,
  so they hold in particular for the real library implementations.
- The filesystem is explicit: read operations take the file's bytes; write
  operations return the list of filesystem actions the Go code would perform,
  in order, so that "no file is written before X" is a statement about that
  list.
-/

set_option maxRecDepth 8000

namespace Selfhost

deriving instance DecidableEq for Except

/-- Bytes of an ASCII string literal (Go string literals used by the package
are all ASCII, where each `Char.toNat` is the byte value). -/
def strBytes (s : String) : List Nat := s.toList.map Char.toNat

/-- Lowercase hex digit character for a value below 16, as used by Go's
`encoding/hex` and by `encoding/json`'s `\u00xx` escapes. -/
def hexDigitChar (n : Nat) : Nat := if n < 10 then 48 + n else 87 + n

/-- True for an ASCII lowercase hex digit character code. -/
def isHexDig (c : Nat) : Bool := decide ((48 ≤ c ∧ c ≤ 57) ∨ (97 ≤ c ∧ c ≤ 102))

/-- Value of a lowercase hex digit character code. -/
def hexVal (c : Nat) : Nat := if c ≤ 57 then c - 48 else c - 87

/-- Model of `hex.EncodeToString`: two lowercase hex digits per byte. -/
def hexEncode (l : List Nat) : List Nat :=
  l.foldr (fun b acc => hexDigitChar (b / 16 % 16) :: hexDigitChar (b % 16) :: acc) []

/-- Model of `binary.BigEndian.PutUint32` applied to `uint32(n)`:
four bytes, most significant first. -/
def be32Encode (n : Nat) : List Nat :=
  [n / 16777216 % 256, n / 65536 % 256, n / 256 % 256, n % 256]

/-- Model of `binary.BigEndian.Uint32` on the first four bytes of a stream. -/
def be32Decode : List Nat → Nat
  | b0 :: b1 :: b2 :: b3 :: _ => ((b0 * 256 + b1) * 256 + b2) * 256 + b3
  | _ => 0

/-- Model of `binary.LittleEndian.PutUint64` applied to `uint64(n)`:
eight bytes, least significant first. -/
def le64Encode (n : Nat) : List Nat :=
  [n % 256, n / 256 % 256, n / 65536 % 256, n / 16777216 % 256,
   n / 4294967296 % 256, n / 1099511627776 % 256,
   n / 281474976710656 % 256, n / 72057594037927936 % 256]

/-- Model of `binary.LittleEndian.Uint64` on the first eight bytes. -/
def le64Decode : List Nat → Nat
  | b0 :: b1 :: b2 :: b3 :: b4 :: b5 :: b6 :: b7 :: _ =>
      b0 + 256 * (b1 + 256 * (b2 + 256 * (b3 + 256 * (b4 + 256 * (b5 + 256 * (b6 + 256 * b7))))))
  | _ => 0

/-- Model of the Go conversion `int64(u)` for a `uint64` value `u`. -/
def toInt64 (u : Nat) : Int := if u < 2 ^ 63 then (u : Int) else (u : Int) - 2 ^ 64

/-- Decimal digit characters of `n`, most significant first; `fuel` bounds the
recursion and any `fuel > n` is enough. -/
def natToDecAux : Nat → Nat → List Nat
  | 0, _ => []
  | fuel + 1, n => if n < 10 then [48 + n] else natToDecAux fuel (n / 10) ++ [48 + n % 10]

/-- Decimal digit characters of a natural number, most significant first. -/
def natToDec (n : Nat) : List Nat := natToDecAux (n + 1) n

/-- Decimal rendering of an `int64` value, as produced by `encoding/json`
for Go's integer types. -/
def encInt (i : Int) : List Nat :=
  if i < 0 then 45 :: natToDec i.natAbs else natToDec i.toNat

/-- True for an ASCII decimal digit character code. -/
def isDig (c : Nat) : Bool := decide (48 ≤ c ∧ c ≤ 57)

/-- Consume leading decimal digits, accumulating their value onto `acc`. -/
def parseDigitsAux (acc : Nat) : List Nat → Nat × List Nat
  | [] => (acc, [])
  | c :: r => if isDig c then parseDigitsAux (acc * 10 + (c - 48)) r else (acc, c :: r)

/-- Parse a nonempty run of decimal digits from the front of the stream. -/
def parseNatJ : List Nat → Option (Nat × List Nat)
  | c :: r => if isDig c then some (parseDigitsAux (c - 48) r) else none
  | [] => none

/-- Parse a JSON integer (optional minus sign, then digits). -/
def parseIntJ (s : List Nat) : Option (Int × List Nat) :=
  if s.head? = some 45 then
    (parseNatJ (s.drop 1)).map (fun p => (-(p.1 : Int), p.2))
  else (parseNatJ s).map (fun p => ((p.1 : Int), p.2))

/-- True when the stream does not start with a decimal digit, so a digit run
ending here is maximal. -/
def headNotDig : List Nat → Bool
  | [] => true
  | c :: _ => !isDig c

/-- Escape of one string byte, exactly as Go's `encoding/json` encoder emits it
(with the default HTML escaping of `<`, `>` and `&`; bytes at and above 0x20
other than quote, backslash and those three pass through unchanged). -/
def escapeByte (b : Nat) : List Nat :=
  if b = 34 then [92, 34]
  else if b = 92 then [92, 92]
  else if b = 10 then [92, 110]
  else if b = 13 then [92, 114]
  else if b = 9 then [92, 116]
  else if b < 32 ∨ b = 60 ∨ b = 62 ∨ b = 38 then
    [92, 117, 48, 48, hexDigitChar (b / 16), hexDigitChar (b % 16)]
  else [b]

/-- JSON string-body escaping of a byte string. -/
def escapeString (s : List Nat) : List Nat := s.foldr (fun b acc => escapeByte b ++ acc) []

/-- A JSON string token: opening quote, escaped body, closing quote. -/
def qstr (s : List Nat) : List Nat := 34 :: escapeString s ++ [34]

/-- Prepend a byte to the decoded-value component of a parse result. -/
def cons1 (v : Nat) (o : Option (List Nat × List Nat)) : Option (List Nat × List Nat) :=
  o.map fun p => (v :: p.1, p.2)

/-- Parse a JSON string body up to (and consuming) the closing quote,
undoing `escapeByte`; the model of `encoding/json`'s string decoding on the
escape sequences this package's encoder produces. -/
def parseStringBody : List Nat → Option (List Nat × List Nat)
  | [] => none
  | c :: rest =>
    if c = 34 then some ([], rest)
    else if c = 92 then
      match rest with
      | [] => none
      | e :: r2 =>
        if e = 34 then cons1 34 (parseStringBody r2)
        else if e = 92 then cons1 92 (parseStringBody r2)
        else if e = 110 then cons1 10 (parseStringBody r2)
        else if e = 114 then cons1 13 (parseStringBody r2)
        else if e = 116 then cons1 9 (parseStringBody r2)
        else if e = 117 then
          match r2 with
          | 48 :: 48 :: d1 :: d2 :: r3 =>
            if isHexDig d1 && isHexDig d2 then
              cons1 (hexVal d1 * 16 + hexVal d2) (parseStringBody r3)
            else none
          | _ => none
        else none
    else cons1 c (parseStringBody rest)

/-- Parse a complete JSON string token (opening quote, body, closing quote). -/
def parseJString : List Nat → Option (List Nat × List Nat)
  | 34 :: rest => parseStringBody rest
  | _ => none

/-- Require the exact byte sequence `pat` at the front of the stream and
drop it. -/
def expectP (pat s : List Nat) : Option (List Nat) :=
  if pat.isPrefixOf s then some (s.drop pat.length) else none

/-- The embedded bundle manifest (`pkg/manifest.Manifest`); field names follow
the JSON tags. `apps` is `Option` to distinguish a nil Go slice (encoded as
`null`) from an empty one (encoded as `[]`). -/
structure Manifest where
  name : List Nat
  version : List Nat
  apps : Option (List (List Nat))
  platform : List Nat
  createdAt : List Nat
deriving DecidableEq

/-- The selfhost container header (`selfhost.Header`); field names follow the
JSON tags. `manifest` is `Option` because the Go field is a nullable pointer. -/
structure Header where
  version : List Nat
  format : List Nat
  compression : List Nat
  bundleSize : Int
  bundleChecksum : List Nat
  manifest : Option Manifest
  opsVersion : List Nat
  createdAt : List Nat
deriving DecidableEq

/-- Two spaces: one `MarshalIndent` indent step. -/
def twoSp : List Nat := [32, 32]

/-- Four spaces: two `MarshalIndent` indent steps. -/
def fourSp : List Nat := [32, 32, 32, 32]

/-- Opening of an indented JSON object followed by its first key: the bytes of
`"\x7b\n" ++ ki ++ "\"key\": "` where `ki` is the indent of the object's keys. -/
def objOpenChunk (ki : List Nat) (key : String) : List Nat :=
  123 :: 10 :: (ki ++ strBytes ("\"" ++ key ++ "\": "))

/-- Separator before a subsequent key of an indented JSON object: the bytes of
`",\n" ++ ki ++ "\"key\": "`. -/
def objKeyChunk (ki : List Nat) (key : String) : List Nat :=
  44 :: 10 :: (ki ++ strBytes ("\"" ++ key ++ "\": "))

/-- Closing of an indented JSON object: the bytes of `"\n" ++ ci ++ "\x7d"`
where `ci` is the indent of the closing brace. -/
def objCloseChunk (ci : List Nat) : List Nat := 10 :: (ci ++ [125])

/-- Separator before a subsequent element of an indented JSON string array:
the bytes of `",\n" ++ ki ++ "  "`. -/
def appsSepChunk (ki : List Nat) : List Nat := 44 :: 10 :: (ki ++ twoSp)

/-- Closing of an indented JSON string array: the bytes of `"\n" ++ ki ++ "]"`. -/
def appsCloseChunk (ki : List Nat) : List Nat := 10 :: (ki ++ [93])

/-- Opening of a nonempty indented JSON string array up to its first element:
the bytes of `"[\n" ++ ki ++ "  "`. -/
def appsOpenChunk (ki : List Nat) : List Nat := 91 :: 10 :: (ki ++ twoSp)

/-- The bytes of the JSON literal `null`. -/
def nullBytes : List Nat := [110, 117, 108, 108]

/-- Elements after the first of a nonempty `apps` array, each preceded by the
separator chunk. -/
def encAppsRest (ki : List Nat) (apps : List (List Nat)) : List Nat :=
  apps.foldr (fun x acc => appsSepChunk ki ++ qstr x ++ acc) []

/-- Encoding of the `apps` field value, as `encoding/json` with indent emits a
`[]string`: `null` for a nil slice, `[]` for an empty one, and one element per
line otherwise (element indent `ki ++ "  "`, closing bracket at `ki`). -/
def encAppsVal (ki : List Nat) : Option (List (List Nat)) → List Nat
  | none => nullBytes
  | some [] => [91, 93]
  | some (a :: rest) => appsOpenChunk ki ++ qstr a ++ encAppsRest ki rest ++ appsCloseChunk ki

/-- Encoding of a `Manifest` as an indented JSON object whose keys are
indented by `ki` and whose closing brace is indented by `ci`. -/
def encodeManifestObj (ki ci : List Nat) (m : Manifest) : List Nat :=
  objOpenChunk ki "name" ++ qstr m.name
  ++ objKeyChunk ki "version" ++ qstr m.version
  ++ objKeyChunk ki "apps" ++ encAppsVal ki m.apps
  ++ objKeyChunk ki "platform" ++ qstr m.platform
  ++ objKeyChunk ki "createdAt" ++ qstr m.createdAt
  ++ objCloseChunk ci

/-- Model of `Manifest.ToJSON` (`json.MarshalIndent(m, "", "  ")`): the
standalone rendering, keys indented two spaces, closing brace at column 0. -/
def encodeManifestJSON (m : Manifest) : List Nat := encodeManifestObj twoSp [] m

/-- Encoding of the header's `manifest` field value: `null` for a nil pointer,
otherwise the manifest object nested one level deeper. -/
def encManifestVal : Option Manifest → List Nat
  | none => nullBytes
  | some m => encodeManifestObj fourSp twoSp m

/-- Model of `Header.ToJSON` (`json.MarshalIndent(h, "", "  ")`): the exact
byte sequence Go produces for a `Header` value, fields in struct order. -/
def encodeHeaderJSON (h : Header) : List Nat :=
  objOpenChunk twoSp "version" ++ qstr h.version
  ++ objKeyChunk twoSp "format" ++ qstr h.format
  ++ objKeyChunk twoSp "compression" ++ qstr h.compression
  ++ objKeyChunk twoSp "bundleSize" ++ encInt h.bundleSize
  ++ objKeyChunk twoSp "bundleChecksum" ++ qstr h.bundleChecksum
  ++ objKeyChunk twoSp "manifest" ++ encManifestVal h.manifest
  ++ objKeyChunk twoSp "opsVersion" ++ qstr h.opsVersion
  ++ objKeyChunk twoSp "createdAt" ++ qstr h.createdAt
  ++ objCloseChunk []

/-- Expect a fixed chunk then parse a JSON string token. -/
def parseField (chunk s : List Nat) : Option (List Nat × List Nat) :=
  (expectP chunk s).bind parseJString

/-- Parse the elements after the first of a nonempty `apps` array, up to and
including the closing bracket. `fuel` bounds the recursion; any value above
the element count is enough. -/
def parseAppsRest (ki : List Nat) : Nat → List Nat → Option (List (List Nat) × List Nat)
  | 0, _ => none
  | fuel + 1, s =>
    match expectP (appsSepChunk ki) s with
    | some s1 =>
        (parseJString s1).bind fun p =>
          (parseAppsRest ki fuel p.2).map fun q => (p.1 :: q.1, q.2)
    | none => (expectP (appsCloseChunk ki) s).map fun s1 => ([], s1)

/-- Parse an `apps` field value (`null`, `[]`, or a nonempty indented array),
undoing `encAppsVal`. -/
def parseAppsVal (ki s : List Nat) : Option (Option (List (List Nat)) × List Nat) :=
  if nullBytes.isPrefixOf s then some (none, s.drop 4)
  else if [91, 93].isPrefixOf s then some (some [], s.drop 2)
  else
    (expectP (appsOpenChunk ki) s).bind fun s1 =>
      (parseJString s1).bind fun p =>
        (parseAppsRest ki s1.length p.2).map fun q => (some (p.1 :: q.1), q.2)

/-- Parse a manifest object, undoing `encodeManifestObj ki ci`. -/
def parseManifestObj (ki ci s : List Nat) : Option (Manifest × List Nat) := do
  let (name, s) ← parseField (objOpenChunk ki "name") s
  let (version, s) ← parseField (objKeyChunk ki "version") s
  let s ← expectP (objKeyChunk ki "apps") s
  let (apps, s) ← parseAppsVal ki s
  let (platform, s) ← parseField (objKeyChunk ki "platform") s
  let (createdAt, s) ← parseField (objKeyChunk ki "createdAt") s
  let s ← expectP (objCloseChunk ci) s
  pure (⟨name, version, apps, platform, createdAt⟩, s)

/-- Parse the header's `manifest` field value (`null` or a nested object). -/
def parseManifestVal (ki ci s : List Nat) : Option (Option Manifest × List Nat) :=
  if nullBytes.isPrefixOf s then some (none, s.drop 4)
  else (parseManifestObj ki ci s).map fun p => (some p.1, p.2)

/-- Parse a header object from the front of a stream, undoing
`encodeHeaderJSON`, and return the unconsumed tail. -/
def parseHeaderJSONPre (s : List Nat) : Option (Header × List Nat) := do
  let (version, s) ← parseField (objOpenChunk twoSp "version") s
  let (format, s) ← parseField (objKeyChunk twoSp "format") s
  let (compression, s) ← parseField (objKeyChunk twoSp "compression") s
  let s ← expectP (objKeyChunk twoSp "bundleSize") s
  let (bundleSize, s) ← parseIntJ s
  let (bundleChecksum, s) ← parseField (objKeyChunk twoSp "bundleChecksum") s
  let s ← expectP (objKeyChunk twoSp "manifest") s
  let (mf, s) ← parseManifestVal fourSp twoSp s
  let (opsVersion, s) ← parseField (objKeyChunk twoSp "opsVersion") s
  let (createdAt, s) ← parseField (objKeyChunk twoSp "createdAt") s
  let s ← expectP (objCloseChunk []) s
  pure (⟨version, format, compression, bundleSize, bundleChecksum, mf, opsVersion, createdAt⟩, s)

/-- Model of `json.Unmarshal` into a `Header` on the canonical encoding: the
whole input must be consumed. -/
def parseHeaderJSON (s : List Nat) : Option Header :=
  (parseHeaderJSONPre s).bind fun p => if p.2 = [] then some p.1 else none

/-- Model of `json.Unmarshal` into a `Manifest` on the canonical standalone
encoding (as written to `manifest.json` by `Manifest.ToJSON`). -/
def unmarshalManifest (s : List Nat) : Option Manifest :=
  (parseManifestObj twoSp [] s).bind fun p => if p.2 = [] then some p.1 else none

/-- The 20-byte start marker `"CONVEX_BUNDLE_START\x00"`. -/
def MagicStart : List Nat := strBytes ("CONVEX_BUNDLE_START\x00")

/-- The 18-byte end marker `"CONVEX_BUNDLE_END\x00"`. -/
def MagicEnd : List Nat := strBytes ("CONVEX_BUNDLE_END\x00")

/-- Length of the start marker. -/
def MagicStartLen : Nat := 20

/-- Length of the end marker. -/
def MagicEndLen : Nat := 18

/-- Size of the header length prefix (big-endian uint32). -/
def HeaderLengthSize : Nat := 4

/-- Size of the footer (little-endian uint64 offset of the start marker). -/
def FooterSize : Nat := 8

/-- Header format version constant. -/
def HeaderVersion : List Nat := strBytes ("1.0.0")

/-- Header format tag constant. -/
def HeaderFormat : List Nat := strBytes ("selfhost-v1")

/-- The gzip compression identifier. -/
def CompressionGzip : List Nat := strBytes ("gzip")

/-- The zstd compression identifier. -/
def CompressionZstd : List Nat := strBytes ("zstd")

/-- Model of `NewHeader`: version, format and compression set, all other
fields at their Go zero values. -/
def NewHeader : Header := ⟨HeaderVersion, HeaderFormat, CompressionGzip, 0, [], none, [], []⟩

/-- Model of `WriteHeader`: the bytes written to the stream (4-byte big-endian
length prefix of `uint32(len(data))`, then the JSON data) and the returned
byte count. -/
def WriteHeader (h : Header) : List Nat × Nat :=
  let data := encodeHeaderJSON h
  (be32Encode data.length ++ data, HeaderLengthSize + data.length)

/-- The bytes `WriteHeader` appends to the output stream. -/
def WriteHeaderBytes (h : Header) : List Nat := (WriteHeader h).1

/-- Model of `ReadHeader` on a byte stream: read the 4-byte length prefix,
reject a declared length above 1 MiB, read that many bytes, decode the JSON;
returns the header and the unconsumed remainder of the stream. -/
def ReadHeader (s : List Nat) : Except (List Nat) (Header × List Nat) :=
  if s.length < HeaderLengthSize then .error (strBytes ("failed to read header length"))
  else
    let length := be32Decode (s.take 4)
    if length > 1048576 then
      .error (strBytes ("header size exceeds maximum allowed size"))
    else
      let rest := s.drop 4
      if rest.length < length then .error (strBytes ("failed to read header data"))
      else
        match parseHeaderJSON (rest.take length) with
        | some h => .ok (h, rest.drop length)
        | none => .error (strBytes ("failed to parse header JSON"))

/-- Model of `Header.Validate`; error messages abbreviate the Go `fmt` texts
but name the same offending field, and the checks are in source order. -/
def Header.Validate (h : Header) : Except (List Nat) Unit :=
  if h.version = [] then .error (strBytes ("header version is required"))
  else if h.format ≠ HeaderFormat then .error (strBytes ("invalid header format"))
  else if h.compression ≠ CompressionGzip ∧ h.compression ≠ CompressionZstd then
    .error (strBytes ("invalid compression"))
  else if h.bundleSize ≤ 0 then .error (strBytes ("bundle size must be positive"))
  else if h.bundleChecksum = [] then .error (strBytes ("bundle checksum is required"))
  else if h.manifest = none then .error (strBytes ("manifest is required"))
  else if h.createdAt = [] then .error (strBytes ("createdAt is required"))
  else .ok ()

/-- Result of self-host detection (`DetectResult`). -/
structure DetectResult where
  IsSelfHost : Bool
  Offset : Int
deriving DecidableEq

/-- Model of `DetectSelfHostModeFromFile` on the file's bytes. A short read of
the marker (footer offset too close to the end) yields `IsSelfHost = false`
exactly as in the source, because `take` then returns fewer than 20 bytes and
the marker comparison fails. I/O failures (unopenable file) are outside the
pure model; on a readable file the function is total. -/
def DetectSelfHostModeFromFile (file : List Nat) : DetectResult :=
  let fileSize := file.length
  if fileSize < FooterSize then ⟨false, 0⟩
  else
    let footer := (file.drop (fileSize - FooterSize)).take FooterSize
    let offset := toInt64 (le64Decode footer)
    if offset < 0 ∨ offset ≥ (fileSize : Int) - (FooterSize : Int) then ⟨false, 0⟩
    else
      let marker := (file.drop offset.toNat).take MagicStartLen
      if marker = MagicStart then ⟨true, offset⟩ else ⟨false, 0⟩

/-- Model of `ReadHeaderFromExecutable` with an explicit (non-empty) path:
detect, then read the framed header just past the start marker. -/
def ReadHeaderFromExecutable (file : List Nat) : Except (List Nat) Header :=
  let r := DetectSelfHostModeFromFile file
  if r.IsSelfHost = false then .error (strBytes ("file is not a self-host executable"))
  else
    match ReadHeader (file.drop (r.Offset.toNat + MagicStartLen)) with
    | .ok p => .ok p.1
    | .error e => .error e

/-- Model of `calculateChecksum`; `hashF` stands for `sha256.Sum256` (32
bytes), the result is `"sha256:" ++ lowercase hex`. -/
def calculateChecksum (hashF : List Nat → List Nat) (data : List Nat) : List Nat :=
  strBytes ("sha256:") ++ hexEncode (hashF data)

/-- Result of bundle verification (`VerifyResult`). -/
structure VerifyResult where
  Valid : Bool
  ExpectedChecksum : List Nat
  ActualChecksum : List Nat
deriving DecidableEq

/-- Model of `Verify` on the file's bytes. The compressed-payload length is
recovered as (remaining stream after the header) minus end marker and footer;
a negative value would make Go's `make` panic, modelled as an error return. -/
def Verify (hashF : List Nat → List Nat) (file : List Nat) : Except (List Nat) VerifyResult :=
  let r := DetectSelfHostModeFromFile file
  if r.IsSelfHost = false then .error (strBytes ("file does not contain an embedded bundle"))
  else
    match ReadHeader (file.drop (r.Offset.toNat + MagicStartLen)) with
    | .error e => .error e
    | .ok (header, rest) =>
      let csize : Int := (rest.length : Int) - (MagicEndLen : Int) - (FooterSize : Int)
      if csize < 0 then .error (strBytes ("panic: makeslice: len out of range"))
      else
        let compressedData := rest.take (rest.length - MagicEndLen - FooterSize)
        let actual := calculateChecksum hashF compressedData
        .ok ⟨decide (actual = header.bundleChecksum), header.bundleChecksum, actual⟩

/-- A tar archive entry as surfaced by Go's `archive/tar` reader. -/
structure TarEntry where
  name : List Nat
  typeflag : Nat
  linkname : List Nat
  content : List Nat
  mode : Nat
deriving DecidableEq

/-- Byte value of `tar.TypeReg`. -/
def tarTypeReg : Nat := 48

/-- Byte value of `tar.TypeSymlink`. -/
def tarTypeSymlink : Nat := 50

/-- Byte value of `tar.TypeDir`. -/
def tarTypeDir : Nat := 53

/-- A filesystem mutation performed during extraction, in program order. -/
inductive FsAction where
  | mkdirAll (path : List Nat) (mode : Nat)
  | writeFile (path : List Nat) (mode : Nat) (content : List Nat)
  | remove (path : List Nat)
  | symlink (target : List Nat) (path : List Nat)
deriving DecidableEq

/-- Model of Go `path/filepath.Clean` on Unix, by components: empty path is
`"."`; `"."` and empty components are dropped; `".."` pops the previous
component, is discarded at the root, and is kept at the front of a relative
path; the result is re-joined and an empty result becomes `"."`. -/
def splitOnSlash : List Nat → List (List Nat)
  | [] => [[]]
  | 47 :: r => [] :: splitOnSlash r
  | c :: r =>
    match splitOnSlash r with
    | g :: gs => (c :: g) :: gs
    | [] => [[c]]

/-- One step of `cleanPath`'s component processing. -/
def cleanStep (rooted : Bool) (acc : List (List Nat)) (c : List Nat) : List (List Nat) :=
  if c = [46, 46] then
    if rooted then acc.dropLast
    else if acc ≠ [] ∧ acc.getLast? ≠ some [46, 46] then acc.dropLast
    else acc ++ [c]
  else acc ++ [c]

/-- Model of `filepath.Clean` (Unix separator). -/
def cleanPath (p : List Nat) : List Nat :=
  if p = [] then [46]
  else
    let rooted : Bool := p.head? == some 47
    let comps := (splitOnSlash p).filter (fun c => decide (c ≠ [] ∧ c ≠ [46]))
    let out := comps.foldl (cleanStep rooted) []
    let res := (if rooted then [47] else []) ++ List.intercalate [47] out
    if res = [] then [46] else res

/-- Model of `filepath.Join` on two elements: empty elements are skipped, the
rest are joined with `/` and cleaned; all-empty input yields the empty path. -/
def joinPath (a b : List Nat) : List Nat :=
  if a = [] ∧ b = [] then []
  else if a = [] then cleanPath b
  else if b = [] then cleanPath a
  else cleanPath (a ++ 47 :: b)

/-- Model of `filepath.Dir`: everything up to and including the final slash,
cleaned (so a slashless path gives `"."`). -/
def dirPath (p : List Nat) : List Nat :=
  cleanPath ((p.reverse.dropWhile (fun c => decide (c ≠ 47))).reverse)

/-- The extraction loop of `extractCompressedTar` over the decoded tar
entries: per entry, join its name onto the output directory, reject the entry
(aborting the loop) when the cleaned target does not have the cleaned output
directory as a string prefix, otherwise materialize it; unknown entry types
are skipped. Returns the actions performed, in order, and the error if the
loop aborted. -/
def extractEntries (outputDir : List Nat) : List TarEntry → List FsAction × Option (List Nat)
  | [] => ([], none)
  | e :: rest =>
    let targetPath := joinPath outputDir e.name
    if !(cleanPath outputDir).isPrefixOf (cleanPath targetPath) then
      ([], some (strBytes ("invalid path in tar: ") ++ e.name))
    else
      let acts :=
        if e.typeflag = tarTypeDir then [FsAction.mkdirAll targetPath e.mode]
        else if e.typeflag = tarTypeReg then
          [FsAction.mkdirAll (dirPath targetPath) 493,
           FsAction.writeFile targetPath e.mode e.content]
        else if e.typeflag = tarTypeSymlink then
          [FsAction.mkdirAll (dirPath targetPath) 493, FsAction.remove targetPath,
           FsAction.symlink e.linkname targetPath]
        else []
      let p := extractEntries outputDir rest
      (acts ++ p.1, p.2)

/-- Model of `extractCompressedTar`; `gunzipF` stands for the gzip reader plus
tar reader chain (`none` models a gzip header error). Returns the filesystem
actions performed and the error, if any. -/
def extractCompressedTar (gunzipF : List Nat → Option (List TarEntry))
    (compressedData outputDir compression : List Nat) : List FsAction × Option (List Nat) :=
  if compression = CompressionGzip ∨ compression = [] then
    match gunzipF compressedData with
    | none => ([], some (strBytes ("failed to create gzip reader")))
    | some entries => extractEntries outputDir entries
  else if compression = CompressionZstd then
    ([], some (strBytes ("zstd decompression is not yet implemented")))
  else ([], some (strBytes ("unsupported compression: ") ++ compression))

/-- Model of `Extract` on the file's bytes: detect, read the header, slice the
payload, verify the checksum unless skipped (before any filesystem action),
then create the output directory and unpack. Returns the filesystem actions
performed, in order, alongside the result. -/
def Extract (hashF : List Nat → List Nat) (gunzipF : List Nat → Option (List TarEntry))
    (file outputDir : List Nat) (skipVerify : Bool) :
    List FsAction × Except (List Nat) Header :=
  let r := DetectSelfHostModeFromFile file
  if r.IsSelfHost = false then
    ([], .error (strBytes ("file does not contain an embedded bundle")))
  else
    match ReadHeader (file.drop (r.Offset.toNat + MagicStartLen)) with
    | .error e => ([], .error (strBytes ("failed to read header: ") ++ e))
    | .ok (header, rest) =>
      let csize : Int := (rest.length : Int) - (MagicEndLen : Int) - (FooterSize : Int)
      if csize < 0 then ([], .error (strBytes ("panic: makeslice: len out of range")))
      else
        let compressedData := rest.take (rest.length - MagicEndLen - FooterSize)
        if skipVerify = false ∧ calculateChecksum hashF compressedData ≠ header.bundleChecksum then
          ([], .error (strBytes ("checksum mismatch: expected ") ++ header.bundleChecksum ++
                strBytes (", got ") ++ calculateChecksum hashF compressedData))
        else
          let p := extractCompressedTar gunzipF compressedData outputDir header.compression
          match p.2 with
          | some e => (FsAction.mkdirAll outputDir 493 :: p.1,
                       .error (strBytes ("failed to extract bundle: ") ++ e))
          | none => (FsAction.mkdirAll outputDir 493 :: p.1, .ok header)

/-- Kind of a filesystem entry seen by `filepath.Walk` during packing. -/
inductive FsKind where
  | dir
  | file
  | symlink
  | other
deriving DecidableEq

/-- A filesystem entry of the bundle directory, with its path relative to the
bundle root, in `filepath.Walk` order. -/
structure FsEntry where
  relPath : List Nat
  kind : FsKind
  content : List Nat
  mode : Nat
  linkTarget : List Nat
deriving DecidableEq

/-- Tar typeflag produced by `tar.FileInfoHeader` for each entry kind
(54 = `tar.TypeFifo`, standing for the skipped "other" kinds). -/
def entryTypeflag : FsKind → Nat
  | .dir => tarTypeDir
  | .file => tarTypeReg
  | .symlink => tarTypeSymlink
  | .other => 54

/-- The tar entry written for one walked filesystem entry: name is the
relative path, link target only for symlinks, content only for regular
files. -/
def entryToTar (e : FsEntry) : TarEntry :=
  ⟨e.relPath, entryTypeflag e.kind,
   if e.kind = FsKind.symlink then e.linkTarget else [],
   if e.kind = FsKind.file then e.content else [], e.mode⟩

/-- The walk sequence with the bundle root (`"."`) skipped. -/
def walkEntries (tree : List FsEntry) : List FsEntry :=
  tree.filter (fun e => decide (e.relPath ≠ [46]))

/-- The accumulated `totalSize` of `createCompressedTar`: the byte lengths of
regular-file contents only. -/
def totalRegularBytes (tree : List FsEntry) : Int :=
  (walkEntries tree).foldl
    (fun acc e => if e.kind = FsKind.file then acc + (e.content.length : Int) else acc) 0

/-- Model of `createCompressedTar`; `packF` stands for the tar writer plus
gzip writer chain over the walked entries. Returns the compressed bytes and
the uncompressed total size. -/
def createCompressedTar (packF : List TarEntry → List Nat) (tree : List FsEntry)
    (compression : List Nat) : Except (List Nat) (List Nat × Int) :=
  if compression = CompressionGzip ∨ compression = [] then
    .ok (packF ((walkEntries tree).map entryToTar), totalRegularBytes tree)
  else if compression = CompressionZstd then
    .error (strBytes ("zstd compression is not yet implemented"))
  else .error (strBytes ("unsupported compression: ") ++ compression)

/-- Options for `Create` (`CreateOptions`), paths as byte strings. -/
structure CreateOptions where
  BundleDir : List Nat
  OpsBinary : List Nat
  OutputPath : List Nat
  Platform : List Nat
  Compression : List Nat
  OpsVersion : List Nat
deriving DecidableEq

/-- The environment `Create` reads: the bundle directory's walk sequence (the
directory exists and `opts.BundleDir` names it), the ops binary's bytes (an
existing regular file), and the RFC3339 string the clock returns for
`time.Now().UTC()`. -/
structure CreateEnv where
  tree : List FsEntry
  opsBytes : List Nat
  now : List Nat
deriving DecidableEq

/-- True when the walk sequence has an entry at exactly this relative path. -/
def hasTreeEntry (tree : List FsEntry) (name : List Nat) : Bool :=
  tree.any (fun e => e.relPath == name)

/-- Contents of the entry at this relative path, if present. -/
def findTreeFile (tree : List FsEntry) (name : List Nat) : Option (List Nat) :=
  (tree.find? (fun e => e.relPath == name)).map (fun e => e.content)

/-- The fixed required-file list checked by `validateCreateInputs`. -/
def requiredFiles : List (List Nat) :=
  [strBytes ("manifest.json"), strBytes ("backend"), strBytes ("convex.db"),
   strBytes ("credentials.json")]

/-- First required file missing from the bundle, if any. -/
def missingRequired (tree : List FsEntry) : Option (List Nat) :=
  requiredFiles.find? (fun f => !(hasTreeEntry tree f))

/-- Model of `validateCreateInputs`. The existence and directory-ness of
`BundleDir` and the existence and file-ness of `OpsBinary` hold by the
environment model (the environment supplies their contents); the remaining
checks — nonempty option strings, the required-file list, and the compression
identifier — are modelled in source order. -/
def validateCreateInputs (tree : List FsEntry) (opts : CreateOptions) :
    Except (List Nat) Unit :=
  if opts.BundleDir = [] then .error (strBytes ("bundle directory is required"))
  else if opts.OpsBinary = [] then .error (strBytes ("ops binary is required"))
  else if opts.OutputPath = [] then .error (strBytes ("output path is required"))
  else if opts.Platform = [] then .error (strBytes ("platform is required"))
  else
    match missingRequired tree with
    | some f => .error (strBytes ("bundle is missing required file: ") ++ f)
    | none =>
      if opts.Compression ≠ CompressionGzip ∧ opts.Compression ≠ CompressionZstd ∧
          opts.Compression ≠ [] then
        .error (strBytes ("invalid compression: ") ++ opts.Compression)
      else .ok ()

/-- Model of `Create`: default the compression, validate inputs, read and
parse `manifest.json`, pack the bundle, checksum it, build and validate the
header, then produce the output file's bytes: ops binary, start marker,
framed header, compressed payload, end marker, footer. The output file is
created only on the success path, so an error return means no output bytes
were produced. -/
def Create (hashF : List Nat → List Nat) (packF : List TarEntry → List Nat)
    (env : CreateEnv) (opts0 : CreateOptions) : Except (List Nat) (List Nat) :=
  let opts := if opts0.Compression = [] then
    { opts0 with Compression := CompressionGzip } else opts0
  match validateCreateInputs env.tree opts with
  | .error e => .error (strBytes ("validation failed: ") ++ e)
  | .ok _ =>
    match findTreeFile env.tree (strBytes ("manifest.json")) with
    | none => .error (strBytes ("failed to read manifest.json"))
    | some manifestData =>
      match unmarshalManifest manifestData with
      | none => .error (strBytes ("failed to parse manifest.json"))
      | some mf =>
        match createCompressedTar packF env.tree opts.Compression with
        | .error e => .error (strBytes ("failed to create compressed archive: ") ++ e)
        | .ok pr =>
          let checksum := calculateChecksum hashF pr.1
          let header : Header :=
            { NewHeader with
              compression := opts.Compression, bundleSize := pr.2,
              bundleChecksum := checksum, manifest := some mf,
              opsVersion := opts.OpsVersion, createdAt := env.now }
          match header.Validate with
          | .error e => .error (strBytes ("invalid header: ") ++ e)
          | .ok _ =>
            .ok (env.opsBytes ++ MagicStart ++ WriteHeaderBytes header ++ pr.1
                 ++ MagicEnd ++ le64Encode env.opsBytes.length)

/-- The byte layout of an assembled container: host executable, start marker,
framed header, compressed payload, end marker, footer. -/
def containerBytes (ops : List Nat) (h : Header) (payload : List Nat) : List Nat :=
  ops ++ (MagicStart ++ (WriteHeaderBytes h ++ (payload ++ (MagicEnd ++ le64Encode ops.length))))

/-- Lexical containment of a path in a directory: after cleaning, the path is
the directory itself or lies strictly below it (the directory plus a
separator is a prefix). This is the spec's notion of "remains within", used
to judge the source's string-prefix check. -/
def pathWithin (dir p : List Nat) : Bool :=
  cleanPath p == cleanPath dir || (cleanPath dir ++ [47]).isPrefixOf (cleanPath p)

/-- The footer-designated start-marker offset of a file, as the detector
decodes it (little-endian uint64 reinterpreted as int64). -/
def footerOffsetInt (file : List Nat) : Int :=
  toInt64 (le64Decode ((file.drop (file.length - FooterSize)).take FooterSize))

/-- Stand-in for `sha256.Sum256` in concrete witnesses: a constant 32-byte
digest (the theorems a witness instantiates hold for every hash function). -/
def hashW : List Nat → List Nat := fun _ => List.replicate 32 0

/-- Stand-in for the tar+gzip packer in concrete witnesses. -/
def packW : List TarEntry → List Nat := fun _ => [7]

/-- Stand-in for the gzip+tar reader in concrete witnesses: no entries. -/
def gunzipW : List Nat → Option (List TarEntry) := fun _ => some []

/-- A small concrete manifest used by witnesses. -/
def mfW : Manifest :=
  ⟨strBytes ("test"), strBytes ("1.0.0"), some [], strBytes ("linux-x64"),
   strBytes ("2024-01-01T00:00:00Z")⟩

/-- A concrete bundle-directory walk containing all required files plus an
empty `storage` directory. -/
def treeW : List FsEntry :=
  [⟨strBytes ("manifest.json"), FsKind.file, encodeManifestJSON mfW, 420, []⟩,
   ⟨strBytes ("backend"), FsKind.file, [1], 493, []⟩,
   ⟨strBytes ("convex.db"), FsKind.file, [2], 420, []⟩,
   ⟨strBytes ("credentials.json"), FsKind.file, [3], 420, []⟩,
   ⟨strBytes ("storage"), FsKind.dir, [], 493, []⟩]

/-- A concrete environment: a 1024-byte host executable and a fixed clock. -/
def envW : CreateEnv := ⟨treeW, List.replicate 1024 0, strBytes ("2024-01-02T00:00:00Z")⟩

/-- Concrete options used by witnesses. -/
def optsW : CreateOptions :=
  ⟨strBytes ("/b"), strBytes ("/ops"), strBytes ("/out"), strBytes ("linux-x64"),
   strBytes ("gzip"), []⟩

/-- The output bytes of the witness `Create` run. -/
def outW : List Nat :=
  match Create hashW packW envW optsW with
  | .ok o => o
  | .error _ => []

/-- Environments for the idempotence counterexample: identical inputs, two
different clock readings one second apart. -/
def env7a : CreateEnv := ⟨treeW, [0], strBytes ("2024-01-01T00:00:00Z")⟩

/-- Second clock reading for the idempotence counterexample. -/
def env7b : CreateEnv := ⟨treeW, [0], strBytes ("2024-01-01T00:00:01Z")⟩

/-- A header whose declared checksum cannot match any recomputed value of the
form `"sha256:" ++ hex`, embedded in the checksum-mismatch witness. -/
def hdr5 : Header :=
  ⟨strBytes ("1.0.0"), strBytes ("selfhost-v1"), strBytes ("gzip"), 3,
   strBytes ("sha256:bad"), some mfW, [], strBytes ("t")⟩

/-- A concrete container whose header declares a wrong checksum. -/
def file5 : List Nat := containerBytes [0] hdr5 [1, 2, 3]

/-- A header that fails validation (wrong format tag, nonpositive size, empty
checksum, no manifest), used to show `ReadHeader` decodes without
validating. -/
def hdr10 : Header :=
  ⟨strBytes ("1.0.0"), strBytes ("bogus"), strBytes ("gzip"), 0, [], none, [],
   strBytes ("t")⟩

/-- A manifest name of 1,048,576 letters `a`: large enough to push the
header's JSON past the 1 MiB read ceiling that `WriteHeader` never checks. -/
def bigName : List Nat := List.replicate 1048576 97

/-- The oversized manifest. -/
def mfBig : Manifest :=
  ⟨bigName, strBytes ("1.0.0"), some [], strBytes ("linux-x64"), strBytes ("t")⟩

/-- A bundle tree whose `manifest.json` carries the oversized manifest. -/
def treeBig : List FsEntry :=
  [⟨strBytes ("manifest.json"), FsKind.file, encodeManifestJSON mfBig, 420, []⟩,
   ⟨strBytes ("backend"), FsKind.file, [1], 493, []⟩,
   ⟨strBytes ("convex.db"), FsKind.file, [2], 420, []⟩,
   ⟨strBytes ("credentials.json"), FsKind.file, [3], 420, []⟩]

/-- Environment for the oversized-manifest run: a 1-byte host executable. -/
def envBig : CreateEnv := ⟨treeBig, [0], strBytes ("t")⟩

/-- The header `Create` builds for the oversized-manifest run (its bundle
size, 1,048,678, is the manifest JSON's length 1,048,675 plus the three
1-byte required files). -/
def hdrBig : Header :=
  ⟨strBytes ("1.0.0"), strBytes ("selfhost-v1"), strBytes ("gzip"), (1048678 : Int),
   calculateChecksum hashW [7], some mfBig, [], strBytes ("t")⟩

/-- The container the oversized-manifest `Create` run produces. -/
def outBig : List Nat := containerBytes [0] hdrBig [7]

/-! Helper lemmas for the codec round-trips. -/

theorem expectP_append (p r : List Nat) : expectP p (p ++ r) = some r := by
  simp [expectP, List.isPrefixOf_iff_prefix, List.prefix_append, List.drop_left]

theorem isHexDig_hexDigitChar (n : Nat) (h : n < 16) : isHexDig (hexDigitChar n) = true := by
  simp only [isHexDig, hexDigitChar]
  split <;> simp <;> omega

theorem hexVal_hexDigitChar (n : Nat) (h : n < 16) : hexVal (hexDigitChar n) = n := by
  simp only [hexVal, hexDigitChar]
  split <;> split <;> omega

theorem escapeString_cons (b : Nat) (t : List Nat) :
    escapeString (b :: t) = escapeByte b ++ escapeString t := rfl

theorem parseStringBody_escape (s : List Nat) :
    ∀ r, parseStringBody (escapeString s ++ 34 :: r) = some (s, r) := by
  induction s with
  | nil =>
    intro r
    show parseStringBody (34 :: r) = some ([], r)
    rw [parseStringBody.eq_def]
    simp
  | cons b t ih =>
    intro r
    rw [escapeString_cons, List.append_assoc]
    by_cases h34 : b = 34
    · subst h34
      show parseStringBody (92 :: 34 :: (escapeString t ++ 34 :: r)) = some (34 :: t, r)
      rw [parseStringBody.eq_def]
      simp [cons1, ih]
    by_cases h92 : b = 92
    · subst h92
      show parseStringBody (92 :: 92 :: (escapeString t ++ 34 :: r)) = some (92 :: t, r)
      rw [parseStringBody.eq_def]
      simp [cons1, ih]
    by_cases h10 : b = 10
    · subst h10
      show parseStringBody (92 :: 110 :: (escapeString t ++ 34 :: r)) = some (10 :: t, r)
      rw [parseStringBody.eq_def]
      simp [cons1, ih]
    by_cases h13 : b = 13
    · subst h13
      show parseStringBody (92 :: 114 :: (escapeString t ++ 34 :: r)) = some (13 :: t, r)
      rw [parseStringBody.eq_def]
      simp [cons1, ih]
    by_cases h9 : b = 9
    · subst h9
      show parseStringBody (92 :: 116 :: (escapeString t ++ 34 :: r)) = some (9 :: t, r)
      rw [parseStringBody.eq_def]
      simp [cons1, ih]
    by_cases hu : b < 32 ∨ b = 60 ∨ b = 62 ∨ b = 38
    · have hesc : escapeByte b =
          [92, 117, 48, 48, hexDigitChar (b / 16), hexDigitChar (b % 16)] := by
        simp [escapeByte, h34, h92, h10, h13, h9, hu]
      have hd1 : isHexDig (hexDigitChar (b / 16)) = true :=
        isHexDig_hexDigitChar _ (by omega)
      have hd2 : isHexDig (hexDigitChar (b % 16)) = true :=
        isHexDig_hexDigitChar _ (by omega)
      have hv1 : hexVal (hexDigitChar (b / 16)) = b / 16 :=
        hexVal_hexDigitChar _ (by omega)
      have hv2 : hexVal (hexDigitChar (b % 16)) = b % 16 :=
        hexVal_hexDigitChar _ (by omega)
      have hb : b / 16 * 16 + b % 16 = b := by omega
      rw [hesc]
      simp only [List.cons_append, List.nil_append]
      rw [parseStringBody.eq_def]
      simp [cons1, ih, hd1, hd2, hv1, hv2, hb]
    · have hesc : escapeByte b = [b] := by
        simp [escapeByte, h34, h92, h10, h13, h9, hu]
      rw [hesc]
      simp only [List.cons_append, List.nil_append]
      rw [parseStringBody.eq_def]
      simp [cons1, ih, h34, h92]

theorem parseJString_q (v r : List Nat) : parseJString (qstr v ++ r) = some (v, r) := by
  have : qstr v ++ r = 34 :: (escapeString v ++ 34 :: r) := by
    simp [qstr]
  rw [this]
  simpa [parseJString] using parseStringBody_escape v r

theorem parseField_enc (chunk v r : List Nat) :
    parseField chunk (chunk ++ (qstr v ++ r)) = some (v, r) := by
  simp [parseField, expectP_append, parseJString_q]

theorem parseDigitsAux_natToDecAux (fuel : Nat) :
    ∀ n acc r, n < fuel →
      parseDigitsAux acc (natToDecAux fuel n ++ r) =
        parseDigitsAux (acc * 10 ^ (natToDecAux fuel n).length + n) r := by
  induction fuel with
  | zero => intro n acc r h; omega
  | succ fuel ih =>
    intro n acc r h
    by_cases h10 : n < 10
    · have hd : isDig (48 + n) = true := by simp [isDig]; omega
      simp [natToDecAux, h10, parseDigitsAux, hd]
    · have hstep : n / 10 < fuel := by omega
      have hd : isDig (48 + n % 10) = true := by simp [isDig]; omega
      have hrec := ih (n / 10) acc ((48 + n % 10) :: r) hstep
      simp only [natToDecAux, h10, if_false, List.append_assoc, List.cons_append,
        List.nil_append] at hrec ⊢
      rw [hrec]
      simp only [parseDigitsAux, hd, if_true]
      have hlen : (natToDecAux fuel (n / 10) ++ [48 + n % 10]).length =
          (natToDecAux fuel (n / 10)).length + 1 := by simp
      rw [hlen]
      have harith : (acc * 10 ^ (natToDecAux fuel (n / 10)).length + n / 10) * 10 +
          (48 + n % 10 - 48) = acc * 10 ^ ((natToDecAux fuel (n / 10)).length + 1) + n := by
        have : 10 ^ ((natToDecAux fuel (n / 10)).length + 1) =
            10 ^ (natToDecAux fuel (n / 10)).length * 10 := by ring
        rw [this]
        have hmod : n / 10 * 10 + n % 10 = n := by omega
        ring_nf
        omega
      rw [harith]

theorem parseDigitsAux_stop (acc : Nat) (r : List Nat) (h : headNotDig r = true) :
    parseDigitsAux acc r = (acc, r) := by
  cases r with
  | nil => simp [parseDigitsAux]
  | cons c t =>
    simp only [headNotDig, Bool.not_eq_true'] at h
    simp [parseDigitsAux, h]

theorem natToDecAux_head (fuel : Nat) :
    ∀ n, n < fuel → ∃ c t, natToDecAux fuel n = c :: t ∧ isDig c = true ∧ c ≠ 45 := by
  induction fuel with
  | zero => intro n h; omega
  | succ fuel ih =>
    intro n h
    by_cases h10 : n < 10
    · refine ⟨48 + n, [], by simp [natToDecAux, h10], by simp [isDig]; omega, by omega⟩
    · obtain ⟨c, t, hct, hc, hc45⟩ := ih (n / 10) (by omega)
      exact ⟨c, t ++ [48 + n % 10], by simp [natToDecAux, h10, hct], hc, hc45⟩

theorem parseNatJ_natToDec (n : Nat) (r : List Nat) (h : headNotDig r = true) :
    parseNatJ (natToDec n ++ r) = some (n, r) := by
  obtain ⟨c, t, hct, hc, _⟩ := natToDecAux_head (n + 1) n (by omega)
  have key : parseDigitsAux 0 (natToDec n ++ r) = (n, r) := by
    rw [natToDec, parseDigitsAux_natToDecAux (n + 1) n 0 r (by omega),
      parseDigitsAux_stop _ _ h]
    simp
  rw [natToDec] at key ⊢
  rw [hct] at key ⊢
  simp only [List.cons_append, parseDigitsAux, hc, if_true, Nat.zero_mul,
    Nat.zero_add, List.append_eq] at key
  simp [parseNatJ, hc, key]

theorem parseIntJ_enc (i : Int) (r : List Nat) (h : headNotDig r = true) :
    parseIntJ (encInt i ++ r) = some (i, r) := by
  by_cases hneg : i < 0
  · have hform : encInt i ++ r = 45 :: (natToDec i.natAbs ++ r) := by simp [encInt, hneg]
    rw [hform]
    have hif : ((45 :: (natToDec i.natAbs ++ r)).head? = some 45) := by simp
    rw [parseIntJ, if_pos hif]
    simp only [List.drop_succ_cons, List.drop_zero]
    rw [parseNatJ_natToDec _ _ h]
    simp only [Option.map_some']
    have hval : -((i.natAbs : Nat) : Int) = i := by omega
    rw [hval]
  · have henc : encInt i = natToDec i.toNat := by simp [encInt, hneg]
    obtain ⟨c, t, hct, hc, hc45⟩ := natToDecAux_head (i.toNat + 1) i.toNat (by omega)
    have hhead : ¬ (encInt i ++ r).head? = some 45 := by
      rw [henc, natToDec, hct]
      simp [hc45]
    rw [parseIntJ, if_neg hhead, henc, parseNatJ_natToDec _ _ h]
    simp only [Option.map_some']
    have hval : ((i.toNat : Nat) : Int) = i := by omega
    rw [hval]

theorem encAppsRest_cons (ki a : List Nat) (rest : List (List Nat)) :
    encAppsRest ki (a :: rest) = appsSepChunk ki ++ qstr a ++ encAppsRest ki rest := rfl

theorem encAppsRest_length (ki : List Nat) (apps : List (List Nat)) :
    apps.length ≤ (encAppsRest ki apps).length := by
  induction apps with
  | nil => simp [encAppsRest]
  | cons a rest ih =>
    rw [encAppsRest_cons]
    simp only [List.length_append, List.length_cons, appsSepChunk]
    omega

theorem parseAppsRest_enc (ki : List Nat) (apps : List (List Nat)) :
    ∀ fuel r, apps.length < fuel →
      parseAppsRest ki fuel (encAppsRest ki apps ++ (appsCloseChunk ki ++ r)) =
        some (apps, r) := by
  induction apps with
  | nil =>
    intro fuel r hf
    match fuel, hf with
    | f + 1, _ =>
      have hno : expectP (appsSepChunk ki) (encAppsRest [] [] ++ (appsCloseChunk ki ++ r)) =
          none := by
        simp [encAppsRest, expectP, appsSepChunk, appsCloseChunk, List.isPrefixOf]
      simp only [encAppsRest, List.foldr_nil, List.nil_append] at hno ⊢
      rw [parseAppsRest]
      rw [show expectP (appsSepChunk ki) (appsCloseChunk ki ++ r) = none from hno]
      rw [expectP_append]
      rfl
  | cons a rest ih =>
    intro fuel r hf
    match fuel, hf with
    | f + 1, hf2 =>
      rw [encAppsRest_cons]
      rw [parseAppsRest]
      rw [List.append_assoc, List.append_assoc, expectP_append]
      have hlt : rest.length < f := by
        simp only [List.length_cons] at hf2
        omega
      have hrec := ih f r hlt
      simp only [parseJString_q, hrec, Option.some_bind, Option.map_some']

theorem parseAppsVal_enc (ki : List Nat) (apps : Option (List (List Nat))) (r : List Nat) :
    parseAppsVal ki (encAppsVal ki apps ++ r) = some (apps, r) := by
  match apps with
  | none =>
    have henc : encAppsVal ki none ++ r = nullBytes ++ r := rfl
    rw [henc, parseAppsVal]
    rw [if_pos (by simp [List.isPrefixOf_iff_prefix, List.prefix_append])]
    rw [show (4 : Nat) = nullBytes.length from rfl, List.drop_left]
  | some [] =>
    have henc : encAppsVal ki (some []) ++ r = 91 :: 93 :: r := rfl
    rw [henc, parseAppsVal]
    rw [if_neg (by simp [nullBytes, List.isPrefixOf])]
    rw [if_pos (by simp [List.isPrefixOf])]
    rfl
  | some (a :: rest) =>
    rw [show encAppsVal ki (some (a :: rest)) ++ r =
      appsOpenChunk ki ++ (qstr a ++ (encAppsRest ki rest ++ (appsCloseChunk ki ++ r)))
      from by simp [encAppsVal]]
    rw [parseAppsVal]
    rw [if_neg (by simp [nullBytes, appsOpenChunk, List.isPrefixOf])]
    rw [if_neg (by simp [appsOpenChunk, List.isPrefixOf])]
    rw [expectP_append]
    have hfuel : rest.length <
        (qstr a ++ (encAppsRest ki rest ++ (appsCloseChunk ki ++ r))).length := by
      have h1 := encAppsRest_length ki rest
      simp only [List.length_append, qstr, List.length_cons, appsCloseChunk]
      omega
    have hrec := parseAppsRest_enc ki rest _ r hfuel
    simp only [Option.some_bind, parseJString_q, hrec, Option.map_some']

theorem headNotDig_objKeyChunk (ki : List Nat) (key : String) (x : List Nat) :
    headNotDig (objKeyChunk ki key ++ x) = true := rfl

theorem parseManifestObj_enc (ki ci : List Nat) (m : Manifest) (r : List Nat) :
    parseManifestObj ki ci (encodeManifestObj ki ci m ++ r) = some (m, r) := by
  rw [show encodeManifestObj ki ci m ++ r =
    objOpenChunk ki "name" ++ (qstr m.name ++
    (objKeyChunk ki "version" ++ (qstr m.version ++
    (objKeyChunk ki "apps" ++ (encAppsVal ki m.apps ++
    (objKeyChunk ki "platform" ++ (qstr m.platform ++
    (objKeyChunk ki "createdAt" ++ (qstr m.createdAt ++
    (objCloseChunk ci ++ r)))))))))) from by simp [encodeManifestObj]]
  simp only [parseManifestObj, Option.bind_eq_bind, parseField_enc, Option.some_bind,
    expectP_append, parseAppsVal_enc, Option.pure_def]

theorem parseManifestVal_enc (mo : Option Manifest) (r : List Nat) :
    parseManifestVal fourSp twoSp (encManifestVal mo ++ r) = some (mo, r) := by
  match mo with
  | none =>
    have henc : encManifestVal none ++ r = nullBytes ++ r := rfl
    rw [henc, parseManifestVal]
    rw [if_pos (by simp [List.isPrefixOf_iff_prefix, List.prefix_append])]
    rw [show (4 : Nat) = nullBytes.length from rfl, List.drop_left]
  | some m =>
    rw [show encManifestVal (some m) ++ r = encodeManifestObj fourSp twoSp m ++ r from rfl]
    rw [parseManifestVal]
    rw [if_neg (by simp [nullBytes, encodeManifestObj, objOpenChunk, List.isPrefixOf])]
    rw [parseManifestObj_enc]
    rfl

theorem parseHeaderJSONPre_enc (h : Header) (r : List Nat) :
    parseHeaderJSONPre (encodeHeaderJSON h ++ r) = some (h, r) := by
  rw [show encodeHeaderJSON h ++ r =
    objOpenChunk twoSp "version" ++ (qstr h.version ++
    (objKeyChunk twoSp "format" ++ (qstr h.format ++
    (objKeyChunk twoSp "compression" ++ (qstr h.compression ++
    (objKeyChunk twoSp "bundleSize" ++ (encInt h.bundleSize ++
    (objKeyChunk twoSp "bundleChecksum" ++ (qstr h.bundleChecksum ++
    (objKeyChunk twoSp "manifest" ++ (encManifestVal h.manifest ++
    (objKeyChunk twoSp "opsVersion" ++ (qstr h.opsVersion ++
    (objKeyChunk twoSp "createdAt" ++ (qstr h.createdAt ++
    (objCloseChunk [] ++ r)))))))))))))))) from by simp [encodeHeaderJSON]]
  simp only [parseHeaderJSONPre, Option.bind_eq_bind, parseField_enc, Option.some_bind,
    expectP_append, parseIntJ_enc, headNotDig_objKeyChunk, parseManifestVal_enc,
    Option.pure_def]

theorem parseHeaderJSON_enc (h : Header) : parseHeaderJSON (encodeHeaderJSON h) = some h := by
  have hp := parseHeaderJSONPre_enc h []
  rw [List.append_nil] at hp
  simp [parseHeaderJSON, hp]

theorem unmarshalManifest_enc (m : Manifest) :
    unmarshalManifest (encodeManifestJSON m) = some m := by
  have hp := parseManifestObj_enc twoSp [] m []
  rw [List.append_nil] at hp
  simp [unmarshalManifest, encodeManifestJSON, hp]

theorem be32_roundtrip (n : Nat) (h : n < 4294967296) : be32Decode (be32Encode n) = n := by
  simp only [be32Encode, be32Decode]
  omega

theorem le64_roundtrip (n : Nat) (h : n < 18446744073709551616) :
    le64Decode (le64Encode n) = n := by
  simp only [le64Encode, le64Decode]
  omega

theorem ReadHeader_WriteHeader (h : Header) (r : List Nat)
    (hle : (encodeHeaderJSON h).length ≤ 1048576) :
    ReadHeader (WriteHeaderBytes h ++ r) = .ok (h, r) := by
  have hb4 : (be32Encode (encodeHeaderJSON h).length).length = 4 := rfl
  have hshape : WriteHeaderBytes h ++ r =
      be32Encode (encodeHeaderJSON h).length ++ (encodeHeaderJSON h ++ r) := by
    simp [WriteHeaderBytes, WriteHeader]
  rw [hshape]
  have hlen : (be32Encode (encodeHeaderJSON h).length ++ (encodeHeaderJSON h ++ r)).length =
      4 + ((encodeHeaderJSON h).length + r.length) := by
    simp [List.length_append, hb4]
  have htake : (be32Encode (encodeHeaderJSON h).length ++ (encodeHeaderJSON h ++ r)).take 4 =
      be32Encode (encodeHeaderJSON h).length := List.take_left' hb4
  have hdrop : (be32Encode (encodeHeaderJSON h).length ++ (encodeHeaderJSON h ++ r)).drop 4 =
      encodeHeaderJSON h ++ r := List.drop_left' hb4
  rw [ReadHeader]
  rw [if_neg (by rw [hlen]; simp [HeaderLengthSize])]
  rw [htake, hdrop, be32_roundtrip _ (by omega)]
  rw [if_neg (by omega)]
  rw [if_neg (by simp only [List.length_append]; omega)]
  rw [List.take_left, List.drop_left]
  rw [parseHeaderJSON_enc]

theorem detect_layout (pre mid : List Nat) (hlt : pre.length < 2 ^ 63) :
    DetectSelfHostModeFromFile (pre ++ (MagicStart ++ (mid ++ le64Encode pre.length))) =
      ⟨true, (pre.length : Int)⟩ := by
  have hms : MagicStart.length = 20 := rfl
  have hle8 : (le64Encode pre.length).length = 8 := rfl
  have hflen : (pre ++ (MagicStart ++ (mid ++ le64Encode pre.length))).length =
      pre.length + 20 + mid.length + 8 := by
    simp only [List.length_append, hms, hle8]
    omega
  have hassoc : pre ++ (MagicStart ++ (mid ++ le64Encode pre.length)) =
      (pre ++ (MagicStart ++ mid)) ++ le64Encode pre.length := by
    simp [List.append_assoc]
  have hBlen : (pre ++ (MagicStart ++ mid)).length = pre.length + 20 + mid.length := by
    simp only [List.length_append, hms]
    omega
  have hfooter : ((pre ++ (MagicStart ++ (mid ++ le64Encode pre.length))).drop
      (pre.length + 20 + mid.length)).take 8 = le64Encode pre.length := by
    rw [hassoc]
    have hidx : pre.length + 20 + mid.length = (pre ++ (MagicStart ++ mid)).length := by
      rw [hBlen]
    rw [hidx, List.drop_left]
    rw [show (8 : Nat) = (le64Encode pre.length).length from rfl, List.take_length]
  have hdec : le64Decode (le64Encode pre.length) = pre.length :=
    le64_roundtrip _ (by omega)
  have hoff : toInt64 (le64Decode (le64Encode pre.length)) = (pre.length : Int) := by
    rw [hdec, toInt64, if_pos (by omega)]
  have hmarker : ((pre ++ (MagicStart ++ (mid ++ le64Encode pre.length))).drop
      pre.length).take 20 = MagicStart := by
    rw [List.drop_left]
    rw [show (20 : Nat) = MagicStart.length from rfl]
    rw [List.take_left]
  rw [DetectSelfHostModeFromFile]
  simp only [hflen, FooterSize, MagicStartLen, Nat.add_sub_cancel]
  rw [if_neg (by omega : ¬(pre.length + 20 + mid.length + 8 < 8))]
  rw [hfooter, hoff]
  rw [if_neg (by push_cast; omega)]
  simp only [Int.toNat_natCast]
  rw [if_pos hmarker]

theorem detect_container (ops : List Nat) (h : Header) (payload : List Nat)
    (hlt : ops.length < 2 ^ 63) :
    DetectSelfHostModeFromFile (containerBytes ops h payload) = ⟨true, (ops.length : Int)⟩ := by
  have hd := detect_layout ops (WriteHeaderBytes h ++ (payload ++ MagicEnd)) hlt
  have hassoc : containerBytes ops h payload =
      ops ++ (MagicStart ++ ((WriteHeaderBytes h ++ (payload ++ MagicEnd)) ++
        le64Encode ops.length)) := by
    simp [containerBytes, List.append_assoc]
  rw [hassoc]
  exact hd

theorem drop_container_marker (ops : List Nat) (h : Header) (payload : List Nat) :
    (containerBytes ops h payload).drop (ops.length + 20) =
      WriteHeaderBytes h ++ (payload ++ (MagicEnd ++ le64Encode ops.length)) := by
  have hshape : containerBytes ops h payload = (ops ++ MagicStart) ++
      (WriteHeaderBytes h ++ (payload ++ (MagicEnd ++ le64Encode ops.length))) := by
    simp [containerBytes, List.append_assoc]
  have hlen : (ops ++ MagicStart).length = ops.length + 20 := by
    simp only [List.length_append]
    rfl
  rw [hshape]
  exact List.drop_left' hlen

theorem ReadHeaderFromExecutable_container (ops : List Nat) (h : Header) (payload : List Nat)
    (hlt : ops.length < 2 ^ 63) (hle : (encodeHeaderJSON h).length ≤ 1048576) :
    ReadHeaderFromExecutable (containerBytes ops h payload) = .ok h := by
  rw [ReadHeaderFromExecutable]
  simp only [detect_container ops h payload hlt]
  rw [if_neg (by simp)]
  simp only [Int.toNat_natCast, MagicStartLen]
  rw [drop_container_marker, ReadHeader_WriteHeader h _ hle]

theorem Verify_container (hashF : List Nat → List Nat) (ops : List Nat) (h : Header)
    (payload : List Nat) (hlt : ops.length < 2 ^ 63)
    (hle : (encodeHeaderJSON h).length ≤ 1048576) :
    Verify hashF (containerBytes ops h payload) =
      .ok ⟨decide (calculateChecksum hashF payload = h.bundleChecksum),
           h.bundleChecksum, calculateChecksum hashF payload⟩ := by
  rw [Verify]
  simp only [detect_container ops h payload hlt]
  rw [if_neg (by simp)]
  simp only [Int.toNat_natCast, MagicStartLen]
  rw [drop_container_marker, ReadHeader_WriteHeader h _ hle]
  have htail : (MagicEnd ++ le64Encode ops.length).length = 26 := by
    simp only [List.length_append]
    rfl
  have hrest : (payload ++ (MagicEnd ++ le64Encode ops.length)).length =
      payload.length + 26 := by
    simp only [List.length_append, htail]
  simp only [hrest, MagicEndLen, FooterSize]
  rw [if_neg (by push_cast; omega)]
  have hidx : payload.length + 26 - 18 - 8 = payload.length := by omega
  rw [hidx, List.take_left]

theorem createCompressedTar_ok (packF : List TarEntry → List Nat) (tree : List FsEntry)
    (comp : List Nat) (pr : List Nat × Int)
    (heq : createCompressedTar packF tree comp = .ok pr) :
    pr = (packF ((walkEntries tree).map entryToTar), totalRegularBytes tree) ∧
      (comp = CompressionGzip ∨ comp = []) := by
  rw [createCompressedTar] at heq
  split at heq
  · exact ⟨(Except.ok.inj heq).symm, by assumption⟩
  · split at heq <;> exact Except.noConfusion heq

theorem Create_ok_shape (hashF : List Nat → List Nat) (packF : List TarEntry → List Nat)
    (env : CreateEnv) (opts0 : CreateOptions) (out : List Nat)
    (hok : Create hashF packF env opts0 = .ok out) :
    ∃ mf : Manifest,
      out = containerBytes env.opsBytes
        { version := HeaderVersion, format := HeaderFormat, compression := CompressionGzip,
          bundleSize := totalRegularBytes env.tree,
          bundleChecksum :=
            calculateChecksum hashF (packF ((walkEntries env.tree).map entryToTar)),
          manifest := some mf, opsVersion := opts0.OpsVersion, createdAt := env.now }
        (packF ((walkEntries env.tree).map entryToTar)) ∧
      Header.Validate
        { version := HeaderVersion, format := HeaderFormat, compression := CompressionGzip,
          bundleSize := totalRegularBytes env.tree,
          bundleChecksum :=
            calculateChecksum hashF (packF ((walkEntries env.tree).map entryToTar)),
          manifest := some mf, opsVersion := opts0.OpsVersion, createdAt := env.now } =
        .ok () := by
  simp only [Create] at hok
  cases hval : validateCreateInputs env.tree
      (if opts0.Compression = [] then { opts0 with Compression := CompressionGzip }
       else opts0) with
  | error e => simp only [hval] at hok; exact Except.noConfusion hok
  | ok u =>
  simp only [hval] at hok
  cases hfind : findTreeFile env.tree (strBytes ("manifest.json")) with
  | none => simp only [hfind] at hok; exact Except.noConfusion hok
  | some mfData =>
  simp only [hfind] at hok
  cases hmf : unmarshalManifest mfData with
  | none => simp only [hmf] at hok; exact Except.noConfusion hok
  | some mf =>
  simp only [hmf] at hok
  cases hpack : createCompressedTar packF env.tree
      (if opts0.Compression = [] then { opts0 with Compression := CompressionGzip }
       else opts0).Compression with
  | error e => simp only [hpack] at hok; exact Except.noConfusion hok
  | ok pr =>
  obtain ⟨hpr, hcomp⟩ := createCompressedTar_ok packF env.tree _ pr hpack
  have hcompeq : (if opts0.Compression = [] then
      { opts0 with Compression := CompressionGzip } else opts0).Compression =
      CompressionGzip := by
    by_cases hc : opts0.Compression = []
    · simp [hc]
    · rcases hcomp with hg | he
      · exact hg
      · rw [if_neg hc] at he
        exact absurd he hc
  have hops : (if opts0.Compression = [] then
      { opts0 with Compression := CompressionGzip } else opts0).OpsVersion =
      opts0.OpsVersion := by
    by_cases hc : opts0.Compression = [] <;> simp [hc]
  simp only [hpack] at hok
  simp only [hpr, NewHeader, hcompeq, hops] at hok
  refine ⟨mf, ?_⟩
  cases hvd : Header.Validate
      { version := HeaderVersion, format := HeaderFormat, compression := CompressionGzip,
        bundleSize := totalRegularBytes env.tree,
        bundleChecksum :=
          calculateChecksum hashF (packF ((walkEntries env.tree).map entryToTar)),
        manifest := some mf, opsVersion := opts0.OpsVersion, createdAt := env.now } with
  | error e => simp only [hvd] at hok; exact Except.noConfusion hok
  | ok u =>
  simp only [hvd, Except.ok.injEq] at hok
  constructor
  · rw [← hok]
    simp [containerBytes, List.append_assoc]
  · rfl

/-! The claims. -/

/-- C1: the path-traversal guard of `extractCompressedTar` is a bare string
prefix test, so the claim "any entry resolving outside the destination is
rejected with an error before being materialized" fails on the code: with
destination `/tmp/foo`, the entry `../foobar` resolves to `/tmp/foobar`,
which is lexically outside the destination, yet the prefix test passes, no
error is returned, and the file is written outside the destination. -/
theorem c1_traversal_escape_at_failing_input :
    (extractCompressedTar
        (fun _ => some [⟨strBytes ("../foobar"), tarTypeReg, [], [120], 420⟩])
        [] (strBytes ("/tmp/foo")) CompressionGzip).2 = none ∧
    FsAction.writeFile (strBytes ("/tmp/foobar")) 420 [120] ∈
      (extractCompressedTar
        (fun _ => some [⟨strBytes ("../foobar"), tarTypeReg, [], [120], 420⟩])
        [] (strBytes ("/tmp/foo")) CompressionGzip).1 ∧
    pathWithin (strBytes ("/tmp/foo")) (strBytes ("/tmp/foobar")) = false := by
  decide

/-- C3: `DetectSelfHostModeFromFile` is total on readable files and returns
`{true, offset}` exactly when the file is at least footer-sized, the decoded
int64 footer offset is nonnegative and leaves room for the footer, and the
twenty bytes there equal the start marker (a short read makes the marker
comparison fail); in every other case it returns `{false, 0}` without
error. -/
theorem c3_detect_characterization (file : List Nat) :
    DetectSelfHostModeFromFile file =
      if FooterSize ≤ file.length ∧ 0 ≤ footerOffsetInt file ∧
          footerOffsetInt file < (file.length : Int) - (FooterSize : Int) ∧
          (file.drop (footerOffsetInt file).toNat).take MagicStartLen = MagicStart
      then ⟨true, footerOffsetInt file⟩ else ⟨false, 0⟩ := by
  simp only [DetectSelfHostModeFromFile, footerOffsetInt, FooterSize, MagicStartLen]
  by_cases h1 : file.length < 8
  · rw [if_pos h1, if_neg (fun hc => by omega)]
  · rw [if_neg h1]
    by_cases h2 : toInt64 (le64Decode ((file.drop (file.length - 8)).take 8)) < 0 ∨
        toInt64 (le64Decode ((file.drop (file.length - 8)).take 8)) ≥
          (file.length : Int) - ((8 : Nat) : Int)
    · rw [if_pos h2]
      rw [if_neg (fun hc => by
        obtain ⟨-, hb, hlt2, -⟩ := hc
        rcases h2 with ha | ha <;> omega)]
    · rw [if_neg h2]
      push_neg at h2
      by_cases h3 : (file.drop
          (toInt64 (le64Decode ((file.drop (file.length - 8)).take 8))).toNat).take 20 =
            MagicStart
      · rw [if_pos h3, if_pos ⟨by omega, by omega, by omega, h3⟩]
      · rw [if_neg h3, if_neg (fun hc => h3 hc.2.2.2)]

/-- Witness for C3: the characterization applied to a concrete container (a
1-byte host) and to a 4-byte non-container file. -/
theorem c3_detect_characterization_witness :
    DetectSelfHostModeFromFile file5 = ⟨true, 1⟩ ∧
    DetectSelfHostModeFromFile [0, 1, 2, 3] = ⟨false, 0⟩ := by
  constructor
  · rw [c3_detect_characterization file5]
    decide
  · rw [c3_detect_characterization [0, 1, 2, 3]]
    decide

/-- C4: writing a framed header and reading it back returns the same header
value and leaves trailing bytes untouched whenever the JSON encoding is at
most 1 MiB, and `WriteHeader` reports 4 plus the JSON length; conversely any
framed input whose declared big-endian length exceeds 1 MiB is rejected with
an error regardless of its body. -/
theorem c4_header_frame_roundtrip_and_ceiling :
    (∀ (h : Header) (r : List Nat), (encodeHeaderJSON h).length ≤ 1048576 →
      ReadHeader (WriteHeaderBytes h ++ r) = .ok (h, r) ∧
      (WriteHeader h).2 = HeaderLengthSize + (encodeHeaderJSON h).length) ∧
    (∀ s : List Nat, HeaderLengthSize ≤ s.length → 1048576 < be32Decode (s.take 4) →
      ReadHeader s = .error (strBytes ("header size exceeds maximum allowed size"))) := by
  constructor
  · intro h r hle
    exact ⟨ReadHeader_WriteHeader h r hle, rfl⟩
  · intro s hlen hceil
    simp only [ReadHeader, HeaderLengthSize] at hlen ⊢
    rw [if_neg (by omega), if_pos (by omega)]

/-- Witness for C4: the round-trip at a concrete header with one trailing
byte, and the ceiling rejection at a concrete frame declaring 2,000,000
bytes. -/
theorem c4_header_frame_roundtrip_and_ceiling_witness :
    ((encodeHeaderJSON hdr5).length ≤ 1048576 ∧
      ReadHeader (WriteHeaderBytes hdr5 ++ [9]) = .ok (hdr5, [9])) ∧
    (HeaderLengthSize ≤ (be32Encode 2000000 ++ [1]).length ∧
      1048576 < be32Decode ((be32Encode 2000000 ++ [1]).take 4) ∧
      ReadHeader (be32Encode 2000000 ++ [1]) =
        .error (strBytes ("header size exceeds maximum allowed size"))) := by
  refine ⟨⟨by decide, ?_⟩, by decide, by decide, ?_⟩
  · exact (c4_header_frame_roundtrip_and_ceiling.1 hdr5 [9] (by decide)).1
  · exact c4_header_frame_roundtrip_and_ceiling.2 (be32Encode 2000000 ++ [1])
      (by decide) (by decide)

/-- C10: `ReadHeader` (and `ReadHeaderFromExecutable` over a container)
returns the decoded header without any semantic validation: even a header
that fails `Header.Validate` is returned without error, provided only that
the frame is within the 1 MiB ceiling. -/
theorem c10_readheader_no_semantic_validation (h : Header) (e r ops payload : List Nat)
    (hbad : Header.Validate h = .error e)
    (hle : (encodeHeaderJSON h).length ≤ 1048576)
    (hlt : ops.length < 2 ^ 63) :
    ReadHeader (WriteHeaderBytes h ++ r) = .ok (h, r) ∧
    ReadHeaderFromExecutable (containerBytes ops h payload) = .ok h :=
  ⟨ReadHeader_WriteHeader h r hle, ReadHeaderFromExecutable_container ops h payload hlt hle⟩

/-- Witness for C10: a concrete header with a wrong format tag, nonpositive
size, empty checksum and no manifest is decoded back intact. -/
theorem c10_readheader_no_semantic_validation_witness :
    Header.Validate hdr10 = .error (strBytes ("invalid header format")) ∧
    ReadHeader (WriteHeaderBytes hdr10 ++ []) = .ok (hdr10, []) ∧
    ReadHeaderFromExecutable (containerBytes [0] hdr10 [1]) = .ok hdr10 := by
  refine ⟨by decide, ?_, ?_⟩
  · exact (c10_readheader_no_semantic_validation hdr10 (strBytes ("invalid header format"))
      [] [0] [1] (by decide) (by decide) (by decide)).1
  · exact (c10_readheader_no_semantic_validation hdr10 (strBytes ("invalid header format"))
      [] [0] [1] (by decide) (by decide) (by decide)).2

/-- C5: when verification is not skipped and the recomputed checksum of the
payload differs from the header's declared checksum, `Extract` fails with a
message carrying both checksum strings, and performs no filesystem action at
all — in particular the destination directory is not created. -/
theorem c5_extract_checksum_mismatch (hashF : List Nat → List Nat)
    (gunzipF : List Nat → Option (List TarEntry)) (file dest : List Nat) (off : Int)
    (h : Header) (rest : List Nat)
    (hdet : DetectSelfHostModeFromFile file = ⟨true, off⟩)
    (hread : ReadHeader (file.drop (off.toNat + MagicStartLen)) = .ok (h, rest))
    (hlen : 26 ≤ rest.length)
    (hmis : calculateChecksum hashF (rest.take (rest.length - MagicEndLen - FooterSize)) ≠
      h.bundleChecksum) :
    Extract hashF gunzipF file dest false =
      ([], .error (strBytes ("checksum mismatch: expected ") ++ h.bundleChecksum ++
        (strBytes (", got ") ++
          calculateChecksum hashF (rest.take (rest.length - MagicEndLen - FooterSize))))) ∧
    List.IsInfix h.bundleChecksum
      (strBytes ("checksum mismatch: expected ") ++ h.bundleChecksum ++
        (strBytes (", got ") ++
          calculateChecksum hashF (rest.take (rest.length - MagicEndLen - FooterSize)))) ∧
    List.IsInfix
      (calculateChecksum hashF (rest.take (rest.length - MagicEndLen - FooterSize)))
      (strBytes ("checksum mismatch: expected ") ++ h.bundleChecksum ++
        (strBytes (", got ") ++
          calculateChecksum hashF (rest.take (rest.length - MagicEndLen - FooterSize)))) := by
  refine ⟨?_, ?_, ?_⟩
  · simp only [Extract, hdet]
    rw [if_neg (by simp)]
    simp only [Int.toNat_natCast, hread]
    rw [if_neg (by simp only [MagicEndLen, FooterSize]; push_cast; omega)]
    rw [if_pos ⟨by simp, hmis⟩]
    simp [List.append_assoc]
  · exact ⟨strBytes ("checksum mismatch: expected "),
      strBytes (", got ") ++
        calculateChecksum hashF (rest.take (rest.length - MagicEndLen - FooterSize)),
      by simp [List.append_assoc]⟩
  · exact ⟨strBytes ("checksum mismatch: expected ") ++ h.bundleChecksum ++
      strBytes (", got "), [], by simp [List.append_assoc]⟩

/-- Witness for C5: a concrete container whose header declares
`"sha256:bad"`; extraction reports both checksums and performs no
filesystem action. -/
theorem c5_extract_checksum_mismatch_witness :
    26 ≤ ([1, 2, 3] ++ (MagicEnd ++ le64Encode 1)).length ∧
    calculateChecksum hashW [1, 2, 3] ≠ hdr5.bundleChecksum ∧
    Extract hashW gunzipW file5 (strBytes ("/d")) false =
      ([], .error (strBytes ("checksum mismatch: expected ") ++ hdr5.bundleChecksum ++
        (strBytes (", got ") ++ calculateChecksum hashW [1, 2, 3]))) := by
  refine ⟨by decide, by decide, ?_⟩
  have hconv : ([1, 2, 3] ++ (MagicEnd ++ le64Encode 1)).take
      (([1, 2, 3] ++ (MagicEnd ++ le64Encode 1)).length - MagicEndLen - FooterSize) =
      [1, 2, 3] := by decide
  have hm := (c5_extract_checksum_mismatch hashW gunzipW file5 (strBytes ("/d")) 1 hdr5
    ([1, 2, 3] ++ (MagicEnd ++ le64Encode 1)) (by decide) (by decide) (by decide)
    (by rw [hconv]; decide)).1
  rw [hconv] at hm
  exact hm

/-- C8: `Header.Validate` fails exactly when one of the enumerated conditions
holds — empty version, empty creation timestamp, format tag other than
`selfhost-v1`, compression outside the gzip/zstd set, nonpositive declared
size, empty checksum, or absent manifest — and succeeds on every other
header. -/
theorem c8_validate_iff (h : Header) :
    ((∃ e, Header.Validate h = .error e) ↔
      (h.version = [] ∨ h.createdAt = [] ∨ h.format ≠ HeaderFormat ∨
        (h.compression ≠ CompressionGzip ∧ h.compression ≠ CompressionZstd) ∨
        h.bundleSize ≤ 0 ∨ h.bundleChecksum = [] ∨ h.manifest = none)) ∧
    (Header.Validate h = .ok () ↔
      ¬(h.version = [] ∨ h.createdAt = [] ∨ h.format ≠ HeaderFormat ∨
        (h.compression ≠ CompressionGzip ∧ h.compression ≠ CompressionZstd) ∨
        h.bundleSize ≤ 0 ∨ h.bundleChecksum = [] ∨ h.manifest = none)) := by
  simp only [Header.Validate]
  split_ifs with a b c d e f g
  all_goals constructor
  all_goals constructor
  all_goals try intro hx
  all_goals simp_all
  all_goals try tauto
  all_goals
    cases hx with
    | inl hx1 => exact hx1.2 (c hx1.1)
    | inr hx2 => omega

/-- Witness for C8: a concrete valid header and a concrete invalid one. -/
theorem c8_validate_iff_witness :
    Header.Validate hdr5 = .ok () ∧ (∃ e, Header.Validate hdr10 = .error e) :=
  ⟨(c8_validate_iff hdr5).2.mpr (by decide), (c8_validate_iff hdr10).1.mpr (by decide)⟩

/-- C9: the `zstd` identifier passes header validation and `Create`'s input
validation, yet both the packer and the unpacker fail with "not yet
implemented", and a `Create` run with `zstd` that passed validation errors at
the packing step, producing no output bytes. -/
theorem c9_zstd_reserved :
    Header.Validate { hdr5 with compression := CompressionZstd } = .ok () ∧
    validateCreateInputs treeW { optsW with Compression := CompressionZstd } = .ok () ∧
    (∀ (packF : List TarEntry → List Nat) (tree : List FsEntry),
      createCompressedTar packF tree CompressionZstd =
        .error (strBytes ("zstd compression is not yet implemented"))) ∧
    (∀ (gunzipF : List Nat → Option (List TarEntry)) (data outDir : List Nat),
      extractCompressedTar gunzipF data outDir CompressionZstd =
        ([], some (strBytes ("zstd decompression is not yet implemented")))) ∧
    (∀ (hashF : List Nat → List Nat) (packF : List TarEntry → List Nat) (env : CreateEnv)
        (opts : CreateOptions) (d : List Nat) (mf : Manifest),
      opts.Compression = CompressionZstd →
      validateCreateInputs env.tree opts = .ok () →
      findTreeFile env.tree (strBytes ("manifest.json")) = some d →
      unmarshalManifest d = some mf →
      Create hashF packF env opts =
        .error (strBytes ("failed to create compressed archive: ") ++
          strBytes ("zstd compression is not yet implemented"))) := by
  refine ⟨by decide, by decide, ?_, ?_, ?_⟩
  · intro packF tree
    rw [createCompressedTar, if_neg (by decide), if_pos rfl]
  · intro gunzipF data outDir
    rw [extractCompressedTar, if_neg (by decide), if_pos rfl]
  · intro hashF packF env opts d mf hzstd hval hfind hmf
    have hdef : (if opts.Compression = [] then
        { opts with Compression := CompressionGzip } else opts) = opts := by
      rw [if_neg (by rw [hzstd]; decide)]
    have hz : createCompressedTar packF env.tree CompressionZstd =
        .error (strBytes ("zstd compression is not yet implemented")) := by
      rw [createCompressedTar, if_neg (by decide), if_pos rfl]
    simp only [Create]
    rw [hdef]
    simp only [hval]
    simp only [hfind, hmf]
    rw [hzstd]
    simp only [hz]

/-- Witness for C9: the universal components applied at concrete arguments. -/
theorem c9_zstd_reserved_witness :
    createCompressedTar packW treeW CompressionZstd =
      .error (strBytes ("zstd compression is not yet implemented")) ∧
    extractCompressedTar gunzipW [1] (strBytes ("/d")) CompressionZstd =
      ([], some (strBytes ("zstd decompression is not yet implemented"))) ∧
    Create hashW packW ⟨treeW, [0], strBytes ("t")⟩
        { optsW with Compression := CompressionZstd } =
      .error (strBytes ("failed to create compressed archive: ") ++
        strBytes ("zstd compression is not yet implemented")) := by
  refine ⟨c9_zstd_reserved.2.2.1 packW treeW,
    c9_zstd_reserved.2.2.2.1 gunzipW [1] (strBytes ("/d")), ?_⟩
  exact c9_zstd_reserved.2.2.2.2 hashW packW ⟨treeW, [0], strBytes ("t")⟩
    { optsW with Compression := CompressionZstd } (encodeManifestJSON mfW) mfW
    (by decide) (by decide) (by decide) (unmarshalManifest_enc mfW)

/-- C7 (amended): `Create` is a deterministic function of its inputs
including the observed clock string — two runs over the same tree, host
bytes and timestamp produce byte-identical containers — and every read
operation is a deterministic function of the file's bytes. -/
theorem c7_idempotence_modulo_timestamp (hashF : List Nat → List Nat)
    (packF : List TarEntry → List Nat) (opts : CreateOptions) (env1 env2 : CreateEnv)
    (htree : env1.tree = env2.tree) (hops : env1.opsBytes = env2.opsBytes)
    (hnow : env1.now = env2.now) :
    Create hashF packF env1 opts = Create hashF packF env2 opts ∧
    (∀ f1 f2 : List Nat, f1 = f2 →
      DetectSelfHostModeFromFile f1 = DetectSelfHostModeFromFile f2 ∧
      Verify hashF f1 = Verify hashF f2 ∧
      ReadHeaderFromExecutable f1 = ReadHeaderFromExecutable f2 ∧
      ∀ (gunzipF : List Nat → Option (List TarEntry)) (dest : List Nat) (skip : Bool),
        Extract hashF gunzipF f1 dest skip = Extract hashF gunzipF f2 dest skip) := by
  have henv : env1 = env2 := by
    cases env1
    cases env2
    simp_all
  subst henv
  exact ⟨rfl, fun f1 f2 hf => by
    subst hf
    exact ⟨rfl, rfl, rfl, fun _ _ _ => rfl⟩⟩

/-- Witness for C7: the amended determinism applied to a concrete
environment given twice, and a concrete read operation. -/
theorem c7_idempotence_modulo_timestamp_witness :
    Create hashW packW env7a optsW =
      Create hashW packW ⟨treeW, [0], strBytes ("2024-01-01T00:00:00Z")⟩ optsW ∧
    Verify hashW file5 = Verify hashW file5 :=
  ⟨(c7_idempotence_modulo_timestamp hashW packW optsW env7a
      ⟨treeW, [0], strBytes ("2024-01-01T00:00:00Z")⟩ rfl rfl rfl).1,
   ((c7_idempotence_modulo_timestamp hashW packW optsW env7a
      ⟨treeW, [0], strBytes ("2024-01-01T00:00:00Z")⟩ rfl rfl rfl).2 file5 file5 rfl).2.1⟩

/-- Counterexample for C7 as frozen: the same tree, host bytes, compression
and metadata, observed at clocks one second apart, make both `Create` runs
succeed with different output bytes (the `createdAt` header field differs),
so re-running `Create` against the same user-visible inputs is not
byte-identical. -/
theorem c7_not_byte_identical_counterexample :
    env7a.tree = env7b.tree ∧ env7a.opsBytes = env7b.opsBytes ∧
    (Create hashW packW env7a optsW).isOk = true ∧
    (Create hashW packW env7b optsW).isOk = true ∧
    Create hashW packW env7a optsW ≠ Create hashW packW env7b optsW := by
  decide

/-- C2 (amended): every successful `Create` yields a container that detects
as self-host with offset exactly the host-executable size; and — provided the
header's JSON stays within the 1 MiB read ceiling — reading the header back
returns a header that passes validation, whose declared bundle size is the
total byte length of the regular files of the source tree, and verification
succeeds with equal checksums. -/
theorem c2_create_self_consistency (hashF : List Nat → List Nat)
    (packF : List TarEntry → List Nat) (env : CreateEnv) (opts0 : CreateOptions)
    (out : List Nat) (hok : Create hashF packF env opts0 = .ok out)
    (hlt : env.opsBytes.length < 2 ^ 63) :
    ∃ (h : Header) (payload : List Nat),
      out = containerBytes env.opsBytes h payload ∧
      Header.Validate h = .ok () ∧
      h.bundleSize = totalRegularBytes env.tree ∧
      DetectSelfHostModeFromFile out = ⟨true, (env.opsBytes.length : Int)⟩ ∧
      ((encodeHeaderJSON h).length ≤ 1048576 →
        ReadHeaderFromExecutable out = .ok h ∧
        Verify hashF out = .ok ⟨true, h.bundleChecksum, h.bundleChecksum⟩) := by
  obtain ⟨mf, hout, hvd⟩ := Create_ok_shape hashF packF env opts0 out hok
  refine ⟨_, _, hout, hvd, rfl, ?_, ?_⟩
  · rw [hout]
    exact detect_container _ _ _ hlt
  · intro hle
    constructor
    · rw [hout]
      exact ReadHeaderFromExecutable_container _ _ _ hlt hle
    · rw [hout, Verify_container hashF _ _ _ hlt hle]
      simp

/-- Witness for C2: the concrete `Create` run over the 1024-byte host and the
required-file tree succeeds and satisfies the self-consistency properties. -/
theorem c2_create_self_consistency_witness :
    Create hashW packW envW optsW = .ok outW ∧
    envW.opsBytes.length < 2 ^ 63 ∧
    (∃ (h : Header) (payload : List Nat),
      outW = containerBytes envW.opsBytes h payload ∧
      Header.Validate h = .ok () ∧
      h.bundleSize = totalRegularBytes envW.tree ∧
      DetectSelfHostModeFromFile outW = ⟨true, (envW.opsBytes.length : Int)⟩ ∧
      ((encodeHeaderJSON h).length ≤ 1048576 →
        ReadHeaderFromExecutable outW = .ok h ∧
        Verify hashW outW = .ok ⟨true, h.bundleChecksum, h.bundleChecksum⟩)) :=
  ⟨by rfl, by decide,
   c2_create_self_consistency hashW packW envW optsW outW (by rfl) (by decide)⟩

theorem ReadHeader_oversize (h : Header) (r : List Nat)
    (hgt : 1048576 < (encodeHeaderJSON h).length)
    (hlt : (encodeHeaderJSON h).length < 4294967296) :
    ReadHeader (WriteHeaderBytes h ++ r) =
      .error (strBytes ("header size exceeds maximum allowed size")) := by
  have hb4 : (be32Encode (encodeHeaderJSON h).length).length = 4 := rfl
  have hshape : WriteHeaderBytes h ++ r =
      be32Encode (encodeHeaderJSON h).length ++ (encodeHeaderJSON h ++ r) := by
    simp [WriteHeaderBytes, WriteHeader]
  rw [hshape]
  have hlen : (be32Encode (encodeHeaderJSON h).length ++ (encodeHeaderJSON h ++ r)).length =
      4 + ((encodeHeaderJSON h).length + r.length) := by
    simp [List.length_append, hb4]
  have htake : (be32Encode (encodeHeaderJSON h).length ++ (encodeHeaderJSON h ++ r)).take 4 =
      be32Encode (encodeHeaderJSON h).length := List.take_left' hb4
  rw [ReadHeader]
  rw [if_neg (by rw [hlen]; simp [HeaderLengthSize])]
  rw [htake, be32_roundtrip _ hlt]
  rw [if_pos hgt]

theorem escapeString_rep97 (n : Nat) :
    escapeString (List.replicate n 97) = List.replicate n 97 := by
  induction n with
  | zero => rfl
  | succ n ih =>
    rw [List.replicate_succ]
    rw [show escapeString (97 :: List.replicate n 97) =
      escapeByte 97 ++ escapeString (List.replicate n 97) from rfl]
    rw [ih]
    rfl

theorem qstr_bigName_length : (qstr bigName).length = 1048578 := by
  rw [qstr, bigName, escapeString_rep97]
  rw [List.length_append, List.length_cons, List.length_replicate]
  rfl

theorem mfBig_json_length : (encodeManifestJSON mfBig).length = 1048675 := by
  have c1 : (objOpenChunk twoSp "name").length = 12 := by decide
  have c2 : (objKeyChunk twoSp "version").length = 15 := by decide
  have c3 : (objKeyChunk twoSp "apps").length = 12 := by decide
  have c4 : (objKeyChunk twoSp "platform").length = 16 := by decide
  have c5 : (objKeyChunk twoSp "createdAt").length = 17 := by decide
  have c6 : (objCloseChunk ([] : List Nat)).length = 2 := by decide
  have q1 : (qstr (strBytes ("1.0.0"))).length = 7 := by decide
  have q2 : (qstr (strBytes ("linux-x64"))).length = 11 := by decide
  have q3 : (qstr (strBytes ("t"))).length = 3 := by decide
  have a1 : ([91, 93] : List Nat).length = 2 := rfl
  have hb := qstr_bigName_length
  simp only [encodeManifestJSON, encodeManifestObj, mfBig, encAppsVal,
    List.length_append]
  omega

theorem hdrBig_json_length : (encodeHeaderJSON hdrBig).length = 1048939 := by
  have c1 : (objOpenChunk twoSp "version").length = 15 := by decide
  have c2 : (objKeyChunk twoSp "format").length = 14 := by decide
  have c3 : (objKeyChunk twoSp "compression").length = 19 := by decide
  have c4 : (objKeyChunk twoSp "bundleSize").length = 18 := by decide
  have c5 : (objKeyChunk twoSp "bundleChecksum").length = 22 := by decide
  have c6 : (objKeyChunk twoSp "manifest").length = 16 := by decide
  have c7 : (objKeyChunk twoSp "opsVersion").length = 18 := by decide
  have c8 : (objKeyChunk twoSp "createdAt").length = 17 := by decide
  have c9 : (objCloseChunk ([] : List Nat)).length = 2 := by decide
  have m1 : (objOpenChunk fourSp "name").length = 14 := by decide
  have m2 : (objKeyChunk fourSp "version").length = 17 := by decide
  have m3 : (objKeyChunk fourSp "apps").length = 14 := by decide
  have m4 : (objKeyChunk fourSp "platform").length = 18 := by decide
  have m5 : (objKeyChunk fourSp "createdAt").length = 19 := by decide
  have m6 : (objCloseChunk twoSp).length = 4 := by decide
  have q1 : (qstr (strBytes ("1.0.0"))).length = 7 := by decide
  have q2 : (qstr (strBytes ("selfhost-v1"))).length = 13 := by decide
  have q3 : (qstr (strBytes ("gzip"))).length = 6 := by decide
  have q4 : (qstr (calculateChecksum hashW [7])).length = 73 := by decide
  have q5 : (qstr ([] : List Nat)).length = 2 := by decide
  have q6 : (qstr (strBytes ("t"))).length = 3 := by decide
  have q7 : (qstr (strBytes ("linux-x64"))).length = 11 := by decide
  have qi : (encInt ((1048678 : Int))).length = 7 := by decide
  have a1 : ([91, 93] : List Nat).length = 2 := rfl
  have hb := qstr_bigName_length
  simp only [encodeHeaderJSON, encManifestVal, encodeManifestObj, hdrBig, mfBig,
    encAppsVal, List.length_append]
  omega

theorem treeBig_total : totalRegularBytes treeBig = (1048678 : Int) := by
  have hwalk : walkEntries treeBig = treeBig := rfl
  rw [totalRegularBytes, hwalk]
  simp only [treeBig, List.foldl_cons, List.foldl_nil]
  norm_num [mfBig_json_length]

theorem Create_ok_intro (hashF : List Nat → List Nat) (packF : List TarEntry → List Nat)
    (env : CreateEnv) (opts : CreateOptions) (mfData : List Nat) (mf : Manifest)
    (pr : List Nat × Int)
    (hdef : (if opts.Compression = [] then { opts with Compression := CompressionGzip }
      else opts) = opts)
    (hval : validateCreateInputs env.tree opts = .ok ())
    (hfind : findTreeFile env.tree (strBytes ("manifest.json")) = some mfData)
    (hmf : unmarshalManifest mfData = some mf)
    (hpack : createCompressedTar packF env.tree opts.Compression = .ok pr)
    (hvd : Header.Validate
      { version := HeaderVersion, format := HeaderFormat, compression := opts.Compression,
        bundleSize := pr.2, bundleChecksum := calculateChecksum hashF pr.1,
        manifest := some mf, opsVersion := opts.OpsVersion, createdAt := env.now } =
      .ok ()) :
    Create hashF packF env opts =
      .ok (env.opsBytes ++ MagicStart ++ WriteHeaderBytes
        { version := HeaderVersion, format := HeaderFormat, compression := opts.Compression,
          bundleSize := pr.2, bundleChecksum := calculateChecksum hashF pr.1,
          manifest := some mf, opsVersion := opts.OpsVersion, createdAt := env.now }
        ++ pr.1 ++ MagicEnd ++ le64Encode env.opsBytes.length) := by
  simp only [Create, hdef, hval, hfind, hmf, hpack, NewHeader]
  simp only [hvd]

theorem create_big_ok : Create hashW packW envBig optsW = .ok outBig := by
  have hdef : (if optsW.Compression = [] then
      { optsW with Compression := CompressionGzip } else optsW) = optsW := by
    rw [if_neg (by decide)]
  have hval : validateCreateInputs treeBig optsW = .ok () := by decide
  have hfind : findTreeFile treeBig (strBytes ("manifest.json")) =
      some (encodeManifestJSON mfBig) := rfl
  have hpack : createCompressedTar packW treeBig optsW.Compression =
      .ok ([7], (1048678 : Int)) := by
    rw [createCompressedTar, if_pos (Or.inl (by decide)), treeBig_total]
    rfl
  have hvd : Header.Validate hdrBig = .ok () := by decide
  have h := Create_ok_intro hashW packW envBig optsW (encodeManifestJSON mfBig) mfBig
    ([7], (1048678 : Int)) hdef hval hfind (unmarshalManifest_enc mfBig) hpack hvd
  rw [h]
  have hrec :
      ({ version := HeaderVersion, format := HeaderFormat,
         compression := optsW.Compression,
         bundleSize := (([7], (1048678 : Int)) : List Nat × Int).2,
         bundleChecksum := calculateChecksum hashW (([7], (1048678 : Int)) : List Nat × Int).1,
         manifest := some mfBig, opsVersion := optsW.OpsVersion,
         createdAt := envBig.now } : Header) = hdrBig := rfl
  rw [hrec]
  rw [show outBig = containerBytes [0] hdrBig [7] from rfl, containerBytes]
  rw [show envBig.opsBytes = [0] from rfl]
  simp only [List.append_assoc]

theorem ReadHeaderFromExecutable_oversize (ops : List Nat) (h : Header)
    (payload : List Nat) (hlt : ops.length < 2 ^ 63)
    (hgt : 1048576 < (encodeHeaderJSON h).length)
    (h32 : (encodeHeaderJSON h).length < 4294967296) :
    ReadHeaderFromExecutable (containerBytes ops h payload) =
      .error (strBytes ("header size exceeds maximum allowed size")) := by
  rw [ReadHeaderFromExecutable]
  simp only [detect_container ops h payload hlt]
  rw [if_neg (by simp)]
  simp only [Int.toNat_natCast, MagicStartLen]
  rw [drop_container_marker, ReadHeader_oversize h _ hgt h32]

theorem Verify_container_oversize (hashF : List Nat → List Nat) (ops : List Nat)
    (h : Header) (payload : List Nat) (hlt : ops.length < 2 ^ 63)
    (hgt : 1048576 < (encodeHeaderJSON h).length)
    (h32 : (encodeHeaderJSON h).length < 4294967296) :
    Verify hashF (containerBytes ops h payload) =
      .error (strBytes ("header size exceeds maximum allowed size")) := by
  rw [Verify]
  simp only [detect_container ops h payload hlt]
  rw [if_neg (by simp)]
  simp only [Int.toNat_natCast, MagicStartLen]
  rw [drop_container_marker, ReadHeader_oversize h _ hgt h32]

theorem c2_oversized_header_counterexample :
    Create hashW packW envBig optsW = .ok outBig ∧
    1048576 < (encodeHeaderJSON hdrBig).length ∧
    ReadHeaderFromExecutable outBig =
      .error (strBytes ("header size exceeds maximum allowed size")) ∧
    Verify hashW outBig =
      .error (strBytes ("header size exceeds maximum allowed size")) := by
  have hgt : 1048576 < (encodeHeaderJSON hdrBig).length := by
    rw [hdrBig_json_length]
    norm_num
  have hlt32 : (encodeHeaderJSON hdrBig).length < 4294967296 := by
    rw [hdrBig_json_length]
    norm_num
  exact ⟨create_big_ok, hgt,
    ReadHeaderFromExecutable_oversize [0] hdrBig [7] (by norm_num) hgt hlt32,
    Verify_container_oversize hashW [0] hdrBig [7] (by norm_num) hgt hlt32⟩

end Selfhost
